import Mathlib

/-!
A shallow embedding of `src/linear_memory.hpp` and `src/main.cpp`.

The class `linear_memory<T>` is a flat, heap-allocated buffer of `T` with a
row-major shape/stride view.  The embedding keeps the member names of the
source.

Modelling conventions.

* `long` values are `Int`; every `long` multiplication and addition of the
  source is followed by `wrapLong`, the reduction to 64-bit two's complement.
  Signed overflow, which the language leaves undefined, is thereby taken as
  the wrap-around of the compiled code; where no overflow occurs `wrapLong`
  is the identity (`wrapLong_of_isLong`), and the statements below say so
  where it matters.
* `size_t` arithmetic is `Nat` arithmetic reduced `% 2 ^ 64`.
* A pointer is a `Nat`, `0` being `nullptr`; a non-null pointer is the base
  address of a block.  The heap maps a base address to the list of `T`
  elements of its block.
* `printf ...; exit(0)` and a failing `assert` end the run: the operation
  returns `Except.error` with the error kind of that site.
* `std::vector::at` outside the vector throws `std::out_of_range`
  (`Err.OutOfRange`); `ptr[i]` outside the block of `ptr` is undefined in the
  source and ends the run of the model with `Err.InvalidAccess`.
* `std::vector` sizes are taken to fit in an `int` (the conversions
  `dim = V_len.size()` and `(int) vec_ind.size()` keep the value).
* The element type `T` is a parameter; the arithmetic of the source on
  elements is the `+`, `*`, `/` and `0` of `T` (for an integer `T` a ring such
  as the integers modulo `2 ^ w`).  A scalar argument `T const & a` is a
  `Scalar`: a reference to a value outside the heap or to an element of a
  block, read anew at every use.
* Operations that involve two objects, or that the reachability relation
  `Step` carries out on an object, act on a `World`: the objects by identity
  and the heap.
-/

namespace LinearMemory

/-- Error kinds: one per failure site of the source. -/
inductive Err where
  /-- `allocate_memory`: `ptr != nullptr` (line 59). -/
  | AllocationConflict
  /-- `allocate_memory`: `L <= 0` (line 65). -/
  | InvalidSize
  /-- `allocate_memory`: byte size at or above 2 GiB (line 71). -/
  | SizeLimitExceeded
  /-- `allocate_memory`: `aligned_alloc` returned `nullptr` (line 83). -/
  | AllocationFailure
  /-- `attach_dimension`: `length == deduced_length` fails (line 104);
  `at`: arity asserts fail (lines 287, 288, 304, 320). -/
  | DimensionMismatch
  /-- `copy`, move assignment: `this == &v || this->ptr == v.ptr` (lines 144, 210). -/
  | SelfAssignment
  /-- `copy`, `at`: a `nullptr` storage (lines 147, 257, 289, 305). -/
  | NullAccess
  /-- `at`: flat index outside `[0, length)` (lines 259, 294, 310). -/
  | OutOfBounds
  /-- `copy`, `inner_product`, `ax_add_to`: lengths differ or are not positive. -/
  | LengthMismatch
  /-- Move assignment into a buffer holding storage or owning (line 203). -/
  | MoveIntoNonEmpty
  /-- `std::vector::at` with an index outside the vector. -/
  | OutOfRange
  /-- `ptr[i]` outside the block `ptr` points to. -/
  | InvalidAccess
  deriving DecidableEq

/-- Reduction of an integer to the range of a 64-bit two's complement `long`. -/
def wrapLong (x : Int) : Int := Int.bmod x (2 ^ 64)

/-- The values a `long` can hold. -/
def isLong (x : Int) : Prop := -(2 ^ 63) ≤ x ∧ x < 2 ^ 63

instance (x : Int) : Decidable (isLong x) := by unfold isLong; infer_instance

/-- The data members of `linear_memory<T>` (lines 17-45), with their default
member initialisers. -/
structure linear_memory where
  bool_manage_memory : Bool := false
  length : Int := -(2 ^ 30)
  ptr : Nat := 0
  dim : Int := 1
  vec_length : List Int := [-(2 ^ 30)]
  vec_stride : List Int := [1]
  name : String := "undefined"
  deriving DecidableEq

/-- The heap: the block of `T` elements at each base address. -/
abbrev Heap (T : Type) := Nat → Option (List T)

/-- The heap with no block. -/
def Heap.empty {T : Type} : Heap T := fun _ => none

/-- The objects of a program (by object identity, the address `this`) and the heap. -/
structure World (T : Type) where
  objs : Nat → linear_memory
  heap : Heap T

/-- The loop `for (i = lo; i < lo + count; i++) body`, the body threading a state. -/
def forLoop {σ : Type} (body : Nat → σ → Except Err σ) : Nat → Nat → σ → Except Err σ
  | _, 0, s => .ok s
  | i, k + 1, s =>
    match body i s with
    | .ok s' => forLoop body (i + 1) k s'
    | .error e => .error e

/-- The call `v.at(i)` of `std::vector<long>`. -/
def vecAt (v : List Int) (i : Nat) : Except Err Int :=
  match v[i]? with
  | some x => .ok x
  | none => .error .OutOfRange

/-- The assignment `v.at(i) = x` of `std::vector<long>`. -/
def vecSet (v : List Int) (i : Nat) (x : Int) : Except Err (List Int) :=
  if i < v.length then .ok (v.set i x) else .error .OutOfRange

/-- The read `p[i]`. -/
def load {T : Type} (heap : Heap T) (p : Nat) (i : Nat) : Except Err T :=
  match heap p with
  | some xs =>
    match xs[i]? with
    | some x => .ok x
    | none => .error .InvalidAccess
  | none => .error .InvalidAccess

/-- The write `p[i] = x`. -/
def store {T : Type} (heap : Heap T) (p : Nat) (i : Nat) (x : T) : Except Err (Heap T) :=
  match heap p with
  | some xs =>
    if i < xs.length then .ok (Function.update heap p (some (xs.set i x)))
    else .error .InvalidAccess
  | none => .error .InvalidAccess

/-- The member `allocate_memory (long const L)` (lines 57-94).

`sizeofT` is `sizeof(T)`; `fresh` is the pointer `aligned_alloc` returns
(`0` when it fails).  The product `L * sizeof(T)` is a `size_t` product; its
comparison with the `double` `2^31` is the comparison of the integers, the
conversion to `double` being monotone and exact at `2^31`.  The block is
zero-filled over `byte_size` bytes, that is `byte_size / sizeof(T)` elements. -/
def allocate_memory {T : Type} [Zero T] (sizeofT : Nat) (fresh : Nat)
    (self : linear_memory) (heap : Heap T) (L : Int) :
    Except Err (linear_memory × Heap T) :=
  if self.ptr ≠ 0 then .error .AllocationConflict
  else if L ≤ 0 then .error .InvalidSize
  else
    let bytes : Nat := ((L % 2 ^ 64).toNat * sizeofT) % 2 ^ 64
    if bytes ≥ 2 ^ 31 then .error .SizeLimitExceeded
    else
      let byte_size : Nat := (((bytes + 32 - 1) % 2 ^ 64) / 32 * 32) % 2 ^ 64
      if fresh = 0 then .error .AllocationFailure
      else
        let heap' : Heap T :=
          Function.update heap fresh (some (List.replicate (byte_size / sizeofT) 0))
        match vecSet self.vec_length 0 L with
        | .ok vl =>
          .ok ({ self with bool_manage_memory := true, length := L, ptr := fresh,
                           vec_length := vl }, heap')
        | .error e => .error e

/-- The statement `d *= V.at(i)` on `long` (lines 103, 131). -/
def mul_extent (V : List Int) (i : Nat) (d : Int) : Except Err Int := do
  let x ← vecAt V i
  pure (wrapLong (d * x))

/-- The loop `for (i = 0; i < dim; i++) deduced_length *= vec_length.at(i)` (line 103). -/
def deduced_length (vec_length : List Int) (dim : Int) : Except Err Int :=
  forLoop (mul_extent vec_length) 0 dim.toNat 1

/-- The statement `vec_stride.at(i) *= vec_length.at(j)` (line 109). -/
def mul_stride (vec_length : List Int) (i j : Nat) (vec_stride : List Int) :
    Except Err (List Int) := do
  let s ← vecAt vec_stride i
  let x ← vecAt vec_length j
  vecSet vec_stride i (wrapLong (s * x))

/-- The inner loop `for (j = i + 1; j < dim; j++) vec_stride.at(i) *= vec_length.at(j)`
(lines 108-109). -/
def stride_row (vec_length : List Int) (dim : Int) (i : Nat) (vec_stride : List Int) :
    Except Err (List Int) :=
  forLoop (mul_stride vec_length i) (i + 1) (dim.toNat - (i + 1)) vec_stride

/-- The nested loops of lines 107-109 on `vec_stride`. -/
def stride_loops (vec_length : List Int) (dim : Int) (vec_stride : List Int) :
    Except Err (List Int) :=
  forLoop (stride_row vec_length dim) 0 dim.toNat vec_stride

/-- The member `attach_dimension (std::vector<long> const & V_len)` (lines 97-115). -/
def attach_dimension (self : linear_memory) (V_len : List Int) : Except Err linear_memory := do
  let vec_length := V_len
  let dim : Int := V_len.length
  let d ← deduced_length vec_length dim
  if self.length ≠ d then .error .DimensionMismatch
  else
    let vec_stride ← stride_loops vec_length dim (List.replicate dim.toNat 1)
    pure { self with vec_length := vec_length, dim := dim, vec_stride := vec_stride }

/-- The constructor `linear_memory (long const L)` (lines 118-119). -/
def ctor_length {T : Type} [Zero T] (sizeofT fresh : Nat) (heap : Heap T) (L : Int) :
    Except Err (linear_memory × Heap T) :=
  allocate_memory sizeofT fresh {} heap L

/-- The constructor `linear_memory (long const L, std::vector<long> const & V_len)`
(lines 122-126). -/
def ctor_length_shape {T : Type} [Zero T] (sizeofT fresh : Nat) (heap : Heap T) (L : Int)
    (V_len : List Int) : Except Err (linear_memory × Heap T) := do
  let (self, heap') ← allocate_memory sizeofT fresh {} heap L
  let self' ← attach_dimension self V_len
  pure (self', heap')

/-- The constructor `linear_memory (std::vector<long> const & V_len)` (lines 129-135). -/
def ctor_shape {T : Type} [Zero T] (sizeofT fresh : Nat) (heap : Heap T)
    (V_len : List Int) : Except Err (linear_memory × Heap T) := do
  let L ← forLoop (mul_extent V_len) 0 V_len.length 1
  let (self, heap') ← allocate_memory sizeofT fresh {} heap L
  let self' ← attach_dimension self V_len
  pure (self', heap')

/-- The statement `ptr[i] = v.ptr[i]` (line 153): `dst` is `ptr`, `src` is `v.ptr`. -/
def copy_element {T : Type} (dst src : Nat) (i : Nat) (heap : Heap T) : Except Err (Heap T) := do
  let x ← load heap src i
  store heap dst i x

/-- The member `copy (linear_memory<T> const & v)` (lines 138-158); `this` and `v`
are the identities of the two objects. -/
def copy {T : Type} (w : World T) (this v : Nat) : Except Err (World T) :=
  if this = v ∨ (w.objs this).ptr = (w.objs v).ptr then .error .SelfAssignment
  else if (w.objs this).ptr = 0 ∨ (w.objs v).ptr = 0 then .error .NullAccess
  else if (w.objs this).length ≤ 0 ∨ (w.objs this).length ≠ (w.objs v).length then
    .error .LengthMismatch
  else
    match forLoop (copy_element (w.objs this).ptr (w.objs v).ptr) 0
        (w.objs this).length.toNat w.heap with
    | .ok heap' => .ok { w with heap := heap' }
    | .error e => .error e

/-- The two assignment lines shared by the move constructor (lines 174-176) and
the move assignment (lines 214-216): `this` takes `length` and `ptr` of `v` and
becomes owning, then `v` is emptied. -/
def move_transfer {T : Type} (w : World T) (this v : Nat) : World T :=
  let src := w.objs v
  let objs1 := Function.update w.objs this
    { w.objs this with length := src.length, ptr := src.ptr, bool_manage_memory := true }
  let objs2 := Function.update objs1 v
    { objs1 v with length := 0, ptr := 0, bool_manage_memory := false }
  { w with objs := objs2 }

/-- The move constructor `linear_memory (linear_memory<T> && v)` (lines 172-184):
the object `this` under construction starts from the default member
initialisers. -/
def move_ctor {T : Type} (w : World T) (this v : Nat) : World T :=
  move_transfer { w with objs := Function.update w.objs this {} } this v

/-- The move assignment `operator= (linear_memory<T> && v)` (lines 196-219). -/
def move_assign {T : Type} (w : World T) (this v : Nat) : Except Err (World T) :=
  if (w.objs this).ptr ≠ 0 ∨ (w.objs this).bool_manage_memory ≠ false then
    .error .MoveIntoNonEmpty
  else if this = v ∨ (w.objs this).ptr = (w.objs v).ptr then .error .SelfAssignment
  else .ok (move_transfer w this v)

/-- The member `at (long const i)` (lines 255-263); the result is the index `i`
of the element `ptr[i]` the returned reference denotes. -/
def at_flat (self : linear_memory) (i : Int) : Except Err Int :=
  if self.ptr = 0 then .error .NullAccess
  else if i < 0 ∨ i ≥ self.length then .error .OutOfBounds
  else .ok i

/-- The statement `ind += vec_ind.at(i) * vec_stride.at(i)` on `long` (lines 279, 292). -/
def add_index_term (vec_ind vec_stride : List Int) (i : Nat) (ind : Int) : Except Err Int := do
  let a ← vecAt vec_ind i
  let s ← vecAt vec_stride i
  pure (wrapLong (ind + wrapLong (a * s)))

/-- The loop `for (i = 0; i < dim; i++) ind += vec_ind.at(i) * vec_stride.at(i)`
(lines 279, 292). -/
def flat_index (self : linear_memory) (vec_ind : List Int) : Except Err Int :=
  forLoop (add_index_term vec_ind self.vec_stride) 0 self.dim.toNat 0

/-- The member `at (std::vector<long> const & vec_ind)` (lines 285-296); the
result is the index `ind` of the element `ptr[ind]` the returned reference
denotes. -/
def at_vec (self : linear_memory) (vec_ind : List Int) : Except Err Int :=
  if vec_ind.length ≠ self.vec_length.length then .error .DimensionMismatch
  else if (vec_ind.length : Int) ≠ self.dim then .error .DimensionMismatch
  else if self.ptr = 0 then .error .NullAccess
  else
    match flat_index self vec_ind with
    | .ok ind => if 0 ≤ ind ∧ ind < self.length then .ok ind else .error .OutOfBounds
    | .error e => .error e

/-- The member `at (long const & i0, long const & i1)` (lines 302-312); the
result is the index `ind` of the element `ptr[ind]` the returned reference
denotes. -/
def at2 (self : linear_memory) (i0 i1 : Int) : Except Err Int :=
  if self.dim ≠ 2 then .error .DimensionMismatch
  else if self.ptr = 0 then .error .NullAccess
  else do
    let s0 ← vecAt self.vec_stride 0
    let s1 ← vecAt self.vec_stride 1
    let ind := wrapLong (wrapLong (i0 * s0) + wrapLong (i1 * s1))
    if 0 ≤ ind ∧ ind < self.length then .ok ind else .error .OutOfBounds

/-- The storage of `self` holds (at least) its `length` elements. -/
def HasStorage {T : Type} (self : linear_memory) (heap : Heap T) : Prop :=
  self.ptr ≠ 0 ∧ ∃ xs, heap self.ptr = some xs ∧ self.length ≤ (xs.length : Int)

/-- The call `std::iota (v.bgn (), v.end (), 0)` of `main.cpp`: `ptr[i] = i` for
`i` in `[0, length)`. -/
def iota (self : linear_memory) (heap : Heap Int) : Except Err (Heap Int) :=
  forLoop (fun i h => store h self.ptr i (i : Int)) 0 self.length.toNat heap

/-- Row-major strides of a shape in `long` arithmetic: entry `i` is the product
of the extents after position `i`. -/
def rowMajorStrides (shape : List Int) : List Int :=
  (List.range shape.length).map (fun i => wrapLong ((shape.drop (i + 1)).prod))

/-- The value of `vec_stride` when the outer loop of lines 107-109 reaches row `i`. -/
def stridesUpTo (V : List Int) (i : Nat) : List Int :=
  (List.range V.length).map (fun r => if r < i then wrapLong ((V.drop (r + 1)).prod) else 1)

/-- The world in which the object `id` is `b` and every other object is default
constructed. -/
def World.single {T : Type} (id : Nat) (b : linear_memory) (heap : Heap T) : World T :=
  { objs := Function.update (fun _ => {}) id b, heap := heap }

/-- The run
`linear_memory<int> a ({2,5}); linear_memory<int> b (std::move (a)); a.allocate_memory (3);`
with `a` the object 0, `b` the object 1, and `aligned_alloc` answering 100 then
200: the object `a` at the end. -/
def allocate_after_move : Except Err linear_memory := do
  let (a, heap) ← ctor_shape (T := Int) 4 100 Heap.empty [2, 5]
  let w := move_ctor (World.single 0 a heap) 1 0
  let (a', _) ← allocate_memory 4 200 (w.objs 0) w.heap 3
  pure a'

/-- The flat offset of an index vector: the sum of `indices[k] * strides[k]`, as
a `long`. -/
def flatOffset (vec_ind vec_stride : List Int) : Int :=
  wrapLong ((List.zipWith (· * ·) vec_ind vec_stride).sum)

/-- The shape members agree: `dim`, `vec_length` and `vec_stride` have one size. -/
def ShapeConsistent (b : linear_memory) : Prop :=
  (b.vec_length.length : Int) = b.dim ∧ b.vec_stride.length = b.vec_length.length

/-- Second block of `main.cpp` (lines 14-28): a 10-element buffer filled with
`0..9`, reshaped to `[2, 5]`; the value of `v.at(1,1)`. -/
def main_block2 : Except Err Int := do
  let (v, heap) ← ctor_length (T := Int) 4 100 Heap.empty 10
  let heap ← iota v heap
  let v ← attach_dimension v [2, 5]
  let ind ← at2 v 1 1
  load heap v.ptr ind.toNat

/-- Third block of `main.cpp` (lines 30-43): a buffer constructed from the shape
`[5, 2]`, filled with `0..9`; the value of `v.at(1,1)`. -/
def main_block3 : Except Err Int := do
  let (v, heap) ← ctor_shape (T := Int) 4 100 Heap.empty [5, 2]
  let heap ← iota v heap
  let ind ← at2 v 1 1
  load heap v.ptr ind.toNat

/-- Two distinct 3-element buffers: object 0 with block 100 holding `0, 0, 0` and
the shape `[3, 1]`, object 1 with block 200 holding `7, 8, 9`. -/
def two_buffers : World Int :=
  { objs := Function.update
      (Function.update (fun _ => {}) 0
        { bool_manage_memory := true, length := 3, ptr := 100, dim := 2, vec_length := [3, 1],
          vec_stride := [1, 1] })
      1 { bool_manage_memory := true, length := 3, ptr := 200, vec_length := [3] },
    heap := Function.update (Function.update Heap.empty 100 (some [0, 0, 0])) 200
      (some [7, 8, 9]) }

/-- The world of the declaration `linear_memory<int> a, b;`: every object is
default constructed and the heap has no block. -/
def default_world : World Int := { objs := fun _ => {}, heap := Heap.empty }

/-- The statement `acc += p1[i] * p2[i]` (lines 361, 391). -/
def add_product {T : Type} [Add T] [Mul T] (heap : Heap T) (p1 p2 : Nat) (i : Nat) (acc : T) :
    Except Err T := do
  let a ← load heap p1 i
  let b ← load heap p2 i
  pure (acc + a * b)

/-- The free function `inner_product (v1, v2)` (lines 384-394). -/
def inner_product {T : Type} [Zero T] [Add T] [Mul T] (heap : Heap T)
    (v1 v2 : linear_memory) : Except Err T :=
  if v1.length ≤ 0 ∨ v2.length ≤ 0 ∨ v1.length ≠ v2.length then .error .LengthMismatch
  else forLoop (add_product heap v1.ptr v2.ptr) 0 v1.length.toNat 0

/-- The member `L2_norm_square ()` (lines 358-364). -/
def L2_norm_square {T : Type} [Zero T] [Add T] [Mul T] (heap : Heap T)
    (self : linear_memory) : Except Err T :=
  forLoop (add_product heap self.ptr self.ptr) 0 self.length.toNat 0

/-- A member function that writes elements only: the objects stay as they are and
the heap becomes the one the loop leaves. -/
def with_heap {T : Type} (w : World T) (r : Except Err (Heap T)) : Except Err (World T) :=
  match r with
  | .ok heap' => .ok { w with heap := heap' }
  | .error e => .error e

/-- A scalar argument `T const & a`: the reference is bound either to an object
outside the blocks of the heap (a temporary or a variable) that holds the value
`a`, or to the element `p[i]` of a block, as in `y.ax_add_to (y (0), x)`. -/
inductive Scalar (T : Type) where
  | val (a : T)
  | elem (p : Nat) (i : Nat)

/-- The value read through a scalar reference in the current heap. -/
def Scalar.read {T : Type} (heap : Heap T) : Scalar T → Except Err T
  | .val a => .ok a
  | .elem p i => load heap p i

/-- The scalar reference is not bound to an element of the block at `p`. -/
def Scalar.Outside {T : Type} (p : Nat) : Scalar T → Prop
  | .val _ => True
  | .elem q _ => q ≠ p

/-- The statement `ptr[i] += a * x.ptr[i]` (line 338): `dst` is `ptr`, `src` is
`x.ptr`; the three operands are read, `a` through its reference, before the
element is written. -/
def add_scaled {T : Type} [Add T] [Mul T] (dst src : Nat) (a : Scalar T) (i : Nat)
    (heap : Heap T) : Except Err (Heap T) := do
  let y ← load heap dst i
  let av ← a.read heap
  let x ← load heap src i
  store heap dst i (y + av * x)

/-- The member `ax_add_to (a, x)` (lines 335-340); `this` and `x` are the
identities of the two objects (they may be the same). -/
def ax_add_to {T : Type} [Add T] [Mul T] (w : World T) (this : Nat) (a : Scalar T) (x : Nat) :
    Except Err (World T) :=
  if (w.objs this).length ≠ (w.objs x).length then .error .LengthMismatch
  else with_heap w (forLoop (add_scaled (w.objs this).ptr (w.objs x).ptr a) 0
    (w.objs this).length.toNat w.heap)

/-- The member `ax_by_assign (a, x, b, y)` (lines 343-349). -/
def ax_by_assign {T : Type} [Add T] [Mul T] (w : World T) (this : Nat) (a : Scalar T)
    (x : Nat) (b : Scalar T) (y : Nat) : Except Err (World T) :=
  if ¬ ((w.objs this).length = (w.objs x).length ∧ (w.objs this).length = (w.objs y).length)
  then .error .LengthMismatch
  else with_heap w (forLoop (fun i heap => do
      let av ← a.read heap
      let u ← load heap (w.objs x).ptr i
      let bv ← b.read heap
      let v ← load heap (w.objs y).ptr i
      store heap (w.objs this).ptr i (av * u + bv * v)) 0 (w.objs this).length.toNat w.heap)

/-- The member `set_constant (a)` (line 332). -/
def set_constant {T : Type} (w : World T) (this : Nat) (a : Scalar T) :
    Except Err (World T) :=
  with_heap w (forLoop (fun i heap => do
      let av ← a.read heap
      store heap (w.objs this).ptr i av) 0 (w.objs this).length.toNat w.heap)

/-- The member `operator*= (a)` (line 242). -/
def mul_assign {T : Type} [Mul T] (w : World T) (this : Nat) (a : Scalar T) :
    Except Err (World T) :=
  with_heap w (forLoop (fun i heap => do
      let u ← load heap (w.objs this).ptr i
      let av ← a.read heap
      store heap (w.objs this).ptr i (u * av)) 0 (w.objs this).length.toNat w.heap)

/-- The member `operator/= (a)` (line 245). -/
def div_assign {T : Type} [Div T] (w : World T) (this : Nat) (a : Scalar T) :
    Except Err (World T) :=
  with_heap w (forLoop (fun i heap => do
      let u ← load heap (w.objs this).ptr i
      let av ← a.read heap
      store heap (w.objs this).ptr i (u / av)) 0 (w.objs this).length.toNat w.heap)

/-- The member `operator= (std::initializer_list<T> il)` (lines 235-240). -/
def assign_list {T : Type} (w : World T) (this : Nat) (il : List T) : Except Err (World T) :=
  if ((w.objs this).length % 2 ^ 64).toNat ≠ il.length then .error .LengthMismatch
  else with_heap w (forLoop (fun i heap => do
      let ind ← at_flat (w.objs this) i
      match il[i]? with
      | some e => store heap (w.objs this).ptr ind.toNat e
      | none => .error .InvalidAccess) 0 il.length w.heap)

/-- The copy constructor (lines 162-163): the new object `this` is constructed by
`linear_memory (v.length)` and then copies from `v`. -/
def copy_ctor {T : Type} [Zero T] (sizeofT fresh : Nat) (w : World T) (this v : Nat) :
    Except Err (World T) := do
  let (b, heap') ← ctor_length sizeofT fresh w.heap (w.objs v).length
  copy { objs := Function.update w.objs this b, heap := heap' } this v

/-- The buffer and the heap as `allocate_memory` leaves them, and the error kind
when the run ends inside it: the state at each `exit(0)` (and at the throw of
`vec_length.at(0)`) as well as at the normal return. -/
def allocate_memory_exit {T : Type} [Zero T] (sizeofT : Nat) (fresh : Nat)
    (self : linear_memory) (heap : Heap T) (L : Int) :
    (linear_memory × Heap T) × Option Err :=
  if self.ptr ≠ 0 then ((self, heap), some .AllocationConflict)
  else if L ≤ 0 then ((self, heap), some .InvalidSize)
  else
    let bytes : Nat := ((L % 2 ^ 64).toNat * sizeofT) % 2 ^ 64
    if bytes ≥ 2 ^ 31 then ((self, heap), some .SizeLimitExceeded)
    else
      let byte_size : Nat := (((bytes + 32 - 1) % 2 ^ 64) / 32 * 32) % 2 ^ 64
      if fresh = 0 then (({ self with ptr := 0 }, heap), some .AllocationFailure)
      else
        let heap' : Heap T :=
          Function.update heap fresh (some (List.replicate (byte_size / sizeofT) 0))
        match vecSet self.vec_length 0 L with
        | .ok vl =>
          (({ self with bool_manage_memory := true, length := L, ptr := fresh,
                        vec_length := vl }, heap'), none)
        | .error e =>
          (({ self with bool_manage_memory := true, length := L, ptr := fresh }, heap'), some e)

/-- Fourth block of `main.cpp` (lines 45-62): `v1` (object 0) holds `0..9`, `v2`
(object 1) is constructed from the shape `[5, 2]`, `v2 = v1` copies, then
`inner_product (v1, v2)` and `v2.ax_add_to (-1, v1)`.  The result is the inner
product, the shape of `v2` at the end, and the first ten elements of the blocks
of `v2` and of `v1` at the end. -/
def main_block4 : Except Err (Int × List Int × Option (List Int) × Option (List Int)) := do
  let (v1, heap) ← ctor_length (T := Int) 4 100 Heap.empty 10
  let heap ← iota v1 heap
  let (v2, heap) ← ctor_shape 4 200 heap [5, 2]
  let w : World Int :=
    { objs := Function.update (Function.update (fun _ => {}) 0 v1) 1 v2, heap := heap }
  let w ← copy w 1 0
  let ip ← inner_product w.heap (w.objs 0) (w.objs 1)
  let w ← ax_add_to w 1 (.val (-1)) 0
  pure (ip, (w.objs 1).vec_length, (w.heap 200).map (List.take 10),
    (w.heap 100).map (List.take 10))

/-- The world with the object `id` replaced by `b` and the heap by `heap`. -/
def World.put {T : Type} (w : World T) (id : Nat) (b : linear_memory) (heap : Heap T) :
    World T :=
  { objs := Function.update w.objs id b, heap := heap }

/-- One public operation of `linear_memory<T>` carried out on the objects of a
world; `id`, `this`, `v`, `x`, `y` are object identities, `sizeofT` is
`sizeof(T)` and `fresh` the answer of `aligned_alloc`.  A constructor builds
its object at the identity `id`. -/
inductive Step {T : Type} [Zero T] [Add T] [Mul T] [Div T] : World T → World T → Prop where
  | ctor_default (w : World T) (id : Nat) : Step w (w.put id {} w.heap)
  | ctor_length (w : World T) (id sizeofT fresh : Nat) (L : Int) (b : linear_memory)
      (heap' : Heap T) (h : ctor_length sizeofT fresh w.heap L = .ok (b, heap')) :
      Step w (w.put id b heap')
  | ctor_length_shape (w : World T) (id sizeofT fresh : Nat) (L : Int) (V : List Int)
      (b : linear_memory) (heap' : Heap T)
      (h : ctor_length_shape sizeofT fresh w.heap L V = .ok (b, heap')) :
      Step w (w.put id b heap')
  | ctor_shape (w : World T) (id sizeofT fresh : Nat) (V : List Int) (b : linear_memory)
      (heap' : Heap T) (h : ctor_shape sizeofT fresh w.heap V = .ok (b, heap')) :
      Step w (w.put id b heap')
  | copy_ctor (w w' : World T) (id v sizeofT fresh : Nat)
      (h : copy_ctor sizeofT fresh w id v = .ok w') : Step w w'
  | move_ctor (w : World T) (id v : Nat) : Step w (move_ctor w id v)
  | allocate_memory (w : World T) (id sizeofT fresh : Nat) (L : Int) (b : linear_memory)
      (heap' : Heap T) (h : allocate_memory sizeofT fresh (w.objs id) w.heap L = .ok (b, heap')) :
      Step w (w.put id b heap')
  | attach_dimension (w : World T) (id : Nat) (V : List Int) (b : linear_memory)
      (h : attach_dimension (w.objs id) V = .ok b) : Step w (w.put id b w.heap)
  | copy (w w' : World T) (this v : Nat) (h : copy w this v = .ok w') : Step w w'
  | move_assign (w w' : World T) (this v : Nat) (h : move_assign w this v = .ok w') : Step w w'
  | assign_list (w w' : World T) (this : Nat) (il : List T)
      (h : assign_list w this il = .ok w') : Step w w'
  | set_constant (w w' : World T) (this : Nat) (a : Scalar T)
      (h : set_constant w this a = .ok w') : Step w w'
  | mul_assign (w w' : World T) (this : Nat) (a : Scalar T)
      (h : mul_assign w this a = .ok w') : Step w w'
  | div_assign (w w' : World T) (this : Nat) (a : Scalar T)
      (h : div_assign w this a = .ok w') : Step w w'
  | ax_add_to (w w' : World T) (this : Nat) (a : Scalar T) (x : Nat)
      (h : ax_add_to w this a x = .ok w') : Step w w'
  | ax_by_assign (w w' : World T) (this : Nat) (a : Scalar T) (x : Nat) (b : Scalar T)
      (y : Nat) (h : ax_by_assign w this a x b y = .ok w') : Step w w'

/-- The worlds a program reaches through the public operations, starting with
every object default constructed and no block on the heap. -/
inductive Reachable {T : Type} [Zero T] [Add T] [Mul T] [Div T] : World T → Prop where
  | init : Reachable { objs := fun _ => {}, heap := Heap.empty }
  | step (w w' : World T) (hw : Reachable w) (hs : Step w w') : Reachable w'

/-- The run `linear_memory<int> v (10); linear_memory<int> d (std::move (v));` with
`v` the object 0 and `d` the object 1. -/
def moved_into : Except Err (World Int) := do
  let (v, heap) ← ctor_length (T := Int) 4 100 Heap.empty 10
  pure (move_ctor ((default_world).put 0 v heap) 1 0)

/-- The buffer and the heap that `linear_memory<int> v (10)` builds when
`aligned_alloc` answers 100: sixteen zeroed `int` in a block of 64 bytes. -/
def ten_zeros : linear_memory × Heap Int :=
  ({ bool_manage_memory := true, length := 10, ptr := 100, vec_length := [10] },
   Function.update Heap.empty 100 (some (List.replicate 16 0)))

/-- The storage handle of `b` is non-null exactly when its `length` is positive. -/
def StorageIffPositive (b : linear_memory) : Prop := b.ptr ≠ 0 ↔ 0 < b.length

/-- The index vector `indices` is in range for `shape`: both have the same size
and `0 <= indices[k] < shape[k]` for every `k`. -/
def InRange : List Int → List Int → Prop
  | [], [] => True
  | i :: is, s :: ss => (0 ≤ i ∧ i < s) ∧ InRange is ss
  | _, _ => False

instance InRange.decidable : ∀ (is ss : List Int), Decidable (InRange is ss)
  | [], [] => isTrue trivial
  | [], _ :: _ => isFalse (fun h => h)
  | _ :: _, [] => isFalse (fun h => h)
  | i :: is, s :: ss =>
    have := InRange.decidable is ss
    inferInstanceAs (Decidable ((0 ≤ i ∧ i < s) ∧ InRange is ss))

/-- The row-major offset of an index vector as a mathematical integer: the sum of
`indices[k]` times the product of the extents after position `k`. -/
def rowMajorOffset : List Int → List Int → Int
  | i :: is, _ :: ss => i * ss.prod + rowMajorOffset is ss
  | _, _ => 0

/-- A 10-element buffer of shape `[2, 5]` with its block at 100. -/
def two_by_five : linear_memory :=
  { bool_manage_memory := true, length := 10, ptr := 100, dim := 2, vec_length := [2, 5],
    vec_stride := [5, 1] }

/-- The heap whose only block, at 100, holds `0..9`. -/
def heap_0_to_9 : Heap Int := Function.update Heap.empty 100 (some [0, 1, 2, 3, 4, 5, 6, 7, 8, 9])

/-- Two 3-element buffers: object 0 (`y`) with block 100 holding `2, 3, 4`,
object 1 (`x`) with block 200 holding `1, 1, 1`. -/
def scalar_in_y : World Int :=
  { objs := Function.update
      (Function.update (fun _ => {}) 0
        { bool_manage_memory := true, length := 3, ptr := 100, vec_length := [3] })
      1 { bool_manage_memory := true, length := 3, ptr := 200, vec_length := [3] },
    heap := Function.update (Function.update Heap.empty 100 (some [2, 3, 4])) 200
      (some [1, 1, 1]) }

/-- The shape members of `b` are those a successful `attach_dimension (shape)`
left: `vec_length`, `dim` and `vec_stride` of `b` are the ones of a buffer that
`attach_dimension (shape)` returned. -/
def ShapeAttached (b : linear_memory) (shape : List Int) : Prop :=
  ∃ self b0, attach_dimension self shape = .ok b0 ∧
    b.vec_length = b0.vec_length ∧ b.dim = b0.dim ∧ b.vec_stride = b0.vec_stride

/-- The run
`linear_memory<int> d ({2,5}); linear_memory<int> t (std::move (d));
linear_memory<int> s (3); d = std::move (s);` with `d`, `t`, `s` the objects 0,
1, 2 and `aligned_alloc` answering 100 then 200. -/
def stale_shape : Except Err (World Int) := do
  let (d, heap) ← ctor_shape (T := Int) 4 100 Heap.empty [2, 5]
  let w := move_ctor (default_world.put 0 d heap) 1 0
  let (s, heap) ← ctor_length 4 200 w.heap 3
  move_assign (w.put 2 s heap) 0 2

/-- A 10-element buffer after `attach_dimension ({7, 5270498306774157606})`: the
`long` product of the two extents is `10`. -/
def wrapped_shape : linear_memory :=
  { bool_manage_memory := true, length := 10, ptr := 100, dim := 2,
    vec_length := [7, 5270498306774157606], vec_stride := [5270498306774157606, 1] }

/-! ## Arithmetic of `long` -/

theorem wrapLong_of_isLong {x : Int} (h : isLong x) : wrapLong x = x := by
  unfold wrapLong
  unfold isLong at h
  rw [Int.bmod_def]
  have h1 : ((2 ^ 64 : Nat) : Int) = 2 ^ 64 := by norm_num
  rw [h1]
  by_cases hx : 0 ≤ x
  · have : x % 2 ^ 64 = x := Int.emod_eq_of_lt hx (by omega)
    rw [this]
    split_ifs with h2
    · rfl
    · exfalso; apply h2; norm_num; omega
  · have : x % 2 ^ 64 = x + 2 ^ 64 := by
      have := Int.add_mul_emod_self (a := x) (b := 1) (c := 2 ^ 64)
      rw [one_mul] at this
      rw [← this]
      exact Int.emod_eq_of_lt (by omega) (by omega)
    rw [this]
    split_ifs with h2
    · exfalso; norm_num at h2; omega
    · ring

theorem wrapLong_wrapLong (x : Int) : wrapLong (wrapLong x) = wrapLong x := by
  unfold wrapLong; exact Int.bmod_bmod

theorem wrapLong_mul_left (a b : Int) : wrapLong (wrapLong a * b) = wrapLong (a * b) := by
  unfold wrapLong; exact Int.bmod_mul_bmod

theorem wrapLong_mul_right (a b : Int) : wrapLong (a * wrapLong b) = wrapLong (a * b) := by
  unfold wrapLong; exact Int.mul_bmod_bmod

theorem wrapLong_add_left (a b : Int) : wrapLong (wrapLong a + b) = wrapLong (a + b) := by
  unfold wrapLong; exact Int.bmod_add_bmod_congr

theorem wrapLong_add_right (a b : Int) : wrapLong (a + wrapLong b) = wrapLong (a + b) := by
  unfold wrapLong; exact Int.add_bmod_bmod

theorem wrapLong_one : wrapLong 1 = 1 := by decide

/-! ## Loops and vectors -/

theorem forLoop_succ_ok {σ : Type} (body : Nat → σ → Except Err σ) (i k : Nat) (s s' : σ)
    (h : body i s = .ok s') : forLoop body i (k + 1) s = forLoop body (i + 1) k s' := by
  rw [forLoop, h]

theorem vecAt_of_getElem? {V : List Int} {i : Nat} {x : Int} (h : V[i]? = some x) :
    vecAt V i = .ok x := by
  simp [vecAt, h]

theorem vecAt_of_lt (V : List Int) (i : Nat) (h : i < V.length) : vecAt V i = .ok V[i] := by
  simp [vecAt, List.getElem?_eq_getElem h]

theorem set_of_getElem? {α : Type} {l : List α} {i : Nat} {a : α} (h : l[i]? = some a) :
    l.set i a = l := by
  have hi : i < l.length := (List.getElem?_eq_some_iff.mp h).1
  apply List.ext_getElem?
  intro n
  by_cases h1 : i = n
  · subst h1; rw [List.getElem?_set_self hi, h]
  · rw [List.getElem?_set_ne h1]

/-! ## `attach_dimension` in closed form -/

theorem mul_extent_of_lt (V : List Int) (i : Nat) (d : Int) (h : i < V.length) :
    mul_extent V i d = .ok (wrapLong (d * V[i])) := by
  simp [mul_extent, vecAt_of_lt V i h, bind, Except.bind, pure, Except.pure]

theorem forLoop_mul_extent (V : List Int) : ∀ (k i : Nat) (d : Int), wrapLong d = d →
    i + k ≤ V.length →
    forLoop (mul_extent V) i k d = .ok (wrapLong (d * ((V.drop i).take k).prod)) := by
  intro k
  induction k with
  | zero => intro i d hd _; simp [forLoop, hd]
  | succ k ih =>
    intro i d _ hik
    have hi : i < V.length := by omega
    rw [forLoop_succ_ok _ _ _ _ _ (mul_extent_of_lt V i d hi)]
    rw [ih (i + 1) _ (wrapLong_wrapLong _) (by omega)]
    rw [List.drop_eq_getElem_cons hi, List.take_succ_cons, List.prod_cons, wrapLong_mul_left]
    simp [mul_assoc]

theorem deduced_length_eq (V : List Int) :
    deduced_length V (V.length : Int) = .ok (wrapLong V.prod) := by
  unfold deduced_length
  rw [Int.toNat_ofNat, forLoop_mul_extent V V.length 0 1 wrapLong_one (by omega)]
  simp

theorem mul_stride_ok (V : List Int) (i j : Nat) (vs : List Int) (s : Int)
    (hs : vs[i]? = some s) (hj : j < V.length) :
    mul_stride V i j vs = .ok (vs.set i (wrapLong (s * V[j]))) := by
  have hi : i < vs.length := (List.getElem?_eq_some_iff.mp hs).1
  simp [mul_stride, vecAt_of_getElem? hs, vecAt_of_lt V j hj, vecSet, hi, bind, Except.bind]

theorem forLoop_mul_stride (V : List Int) (i : Nat) : ∀ (k j : Nat) (vs : List Int) (s : Int),
    vs[i]? = some s → wrapLong s = s → j + k ≤ V.length →
    forLoop (mul_stride V i) j k vs
      = .ok (vs.set i (wrapLong (s * ((V.drop j).take k).prod))) := by
  intro k
  induction k with
  | zero =>
    intro j vs s hs hw _
    simp only [forLoop, List.take_zero, List.prod_nil, mul_one, hw, set_of_getElem? hs]
  | succ k ih =>
    intro j vs s hs _ hjk
    have hj : j < V.length := by omega
    have hi : i < vs.length := (List.getElem?_eq_some_iff.mp hs).1
    rw [forLoop_succ_ok _ _ _ _ _ (mul_stride_ok V i j vs s hs hj)]
    rw [ih (j + 1) _ (wrapLong (s * V[j])) (by simp [List.getElem?_set, hi])
      (wrapLong_wrapLong _) (by omega)]
    rw [List.set_set, List.drop_eq_getElem_cons hj, List.take_succ_cons, List.prod_cons,
      wrapLong_mul_left]
    simp [mul_assoc]

theorem forLoop_stride_outer (V : List Int) : ∀ (k i : Nat), i + k = V.length →
    forLoop (stride_row V (V.length : Int)) i k (stridesUpTo V i)
      = .ok (stridesUpTo V V.length) := by
  intro k
  induction k with
  | zero => intro i hi; simp at hi; subst hi; rfl
  | succ k ih =>
    intro i hik
    have hi : i < V.length := by omega
    have hs : (stridesUpTo V i)[i]? = some 1 := by
      simp [stridesUpTo, List.getElem?_range hi]
    have hstep : stride_row V (V.length : Int) i (stridesUpTo V i)
        = .ok (stridesUpTo V (i + 1)) := by
      unfold stride_row
      rw [Int.toNat_ofNat, forLoop_mul_stride V i _ _ _ 1 hs wrapLong_one (by omega)]
      congr 1
      rw [List.take_of_length_le (by simp)]
      apply List.ext_getElem?
      intro n
      rw [List.getElem?_set]
      by_cases hn : n < V.length
      · simp only [stridesUpTo, List.length_map, List.length_range, hi, List.getElem?_map,
          List.getElem?_range hn, Option.map_some', one_mul]
        by_cases h1 : i = n
        · subst h1; simp
        · simp only [h1, if_false]
          by_cases h2 : n < i
          · simp [h2, Nat.lt_succ_of_lt h2]
          · have : ¬ n < i + 1 := by omega
            simp [h2, this]
      · have h1 : i ≠ n := by omega
        have h2 : (List.range V.length)[n]? = none := by
          rw [List.getElem?_eq_none_iff]; simp; omega
        simp [stridesUpTo, h1, h2]
    rw [forLoop_succ_ok _ _ _ _ _ hstep]
    exact ih (i + 1) (by omega)

theorem stridesUpTo_zero (V : List Int) : stridesUpTo V 0 = List.replicate V.length 1 := by
  apply List.ext_getElem?
  intro n
  by_cases hn : n < V.length
  · simp [stridesUpTo, List.getElem?_range hn, hn]
  · simp [stridesUpTo, hn]

theorem stridesUpTo_length (V : List Int) : stridesUpTo V V.length = rowMajorStrides V := by
  unfold stridesUpTo rowMajorStrides
  apply List.map_congr_left
  intro r hr
  simp [List.mem_range.mp hr]

theorem stride_loops_eq (V : List Int) :
    stride_loops V (V.length : Int) (List.replicate V.length 1) = .ok (rowMajorStrides V) := by
  unfold stride_loops
  rw [Int.toNat_ofNat, ← stridesUpTo_zero, forLoop_stride_outer V V.length 0 (by omega),
    stridesUpTo_length]

theorem attach_dimension_eq (self : linear_memory) (V : List Int) :
    attach_dimension self V =
      if self.length ≠ wrapLong V.prod then .error .DimensionMismatch
      else .ok { self with vec_length := V, dim := V.length, vec_stride := rowMajorStrides V } := by
  unfold attach_dimension
  simp only [deduced_length_eq, Int.toNat_ofNat, stride_loops_eq, bind, Except.bind, pure,
    Except.pure]

/-! ## `allocate_memory` -/

theorem load_update_replicate {T : Type} [Zero T] (heap : Heap T) (p n i : Nat) (h : i < n) :
    load (Function.update heap p (some (List.replicate n (0 : T)))) p i = .ok 0 := by
  simp [load, List.getElem?_replicate, h]

/-- On a buffer without storage whose shape vector has one entry (as after default
construction), `allocate_memory` with a succeeding allocator gives `length = L`,
the shape `[L]` and `L` zero elements, and leaves `dim` and `vec_stride` as they
were. -/
theorem allocate_memory_one_dim {T : Type} [Zero T] (sizeofT fresh : Nat)
    (self : linear_memory) (heap : Heap T) (L x : Int)
    (hptr : self.ptr = 0) (hshape : self.vec_length = [x]) (hL : 0 < L)
    (hsz : 0 < sizeofT) (hcap : L * sizeofT < 2 ^ 31) (hfresh : fresh ≠ 0) :
    ∃ b heap', allocate_memory sizeofT fresh self heap L = .ok (b, heap') ∧
      b.length = L ∧ b.vec_length = [L] ∧ b.dim = self.dim ∧
      b.vec_stride = self.vec_stride ∧ b.ptr = fresh ∧ b.bool_manage_memory = true ∧
      ∀ i : Nat, (i : Int) < L → load heap' b.ptr i = .ok 0 := by
  obtain ⟨n, rfl⟩ : ∃ n : Nat, L = n := ⟨L.toNat, by omega⟩
  have hn : n * sizeofT < 2 ^ 31 := by exact_mod_cast hcap
  have hmod : ((n : Int) % 2 ^ 64).toNat = n := by
    have hn' : n < 2 ^ 31 := lt_of_le_of_lt (Nat.le_mul_of_pos_right n hsz) hn
    omega
  have hb : (n * sizeofT) % 2 ^ 64 = n * sizeofT := Nat.mod_eq_of_lt (by omega)
  have hL' : ¬ ((n : Int) ≤ 0) := by omega
  have hval : allocate_memory sizeofT fresh self heap (n : Int) =
      .ok ({ self with bool_manage_memory := true, length := n, ptr := fresh,
                       vec_length := [(n : Int)] },
           Function.update heap fresh
             (some (List.replicate
               ((n * sizeofT + 32 - 1) % 2 ^ 64 / 32 * 32 % 2 ^ 64 / sizeofT) 0))) := by
    simp only [allocate_memory, hptr, hshape, vecSet, hmod, hb]
    simp [hL', hfresh]
    omega
  refine ⟨_, _, hval, rfl, rfl, rfl, rfl, rfl, rfl, ?_⟩
  intro i hi
  apply load_update_replicate
  have hi' : i < n := by exact_mod_cast hi
  apply lt_of_lt_of_le hi'
  rw [Nat.le_div_iff_mul_le hsz]
  omega

/-- A default-constructed buffer: `allocate_memory` gives the shape `[L]`,
`dim = 1`, strides `[1]`. -/
theorem allocate_memory_default {T : Type} [Zero T] (sizeofT fresh : Nat)
    (heap : Heap T) (L : Int) (hL : 0 < L)
    (hsz : 0 < sizeofT) (hcap : L * sizeofT < 2 ^ 31) (hfresh : fresh ≠ 0) :
    ∃ b heap', allocate_memory sizeofT fresh {} heap L = .ok (b, heap') ∧
      b.length = L ∧ b.vec_length = [L] ∧ b.dim = 1 ∧ b.vec_stride = [1] ∧
      ∀ i : Nat, (i : Int) < L → load heap' b.ptr i = .ok 0 := by
  obtain ⟨b, heap', h, h1, h2, h3, h4, _, _, h7⟩ :=
    allocate_memory_one_dim sizeofT fresh {} heap L (-(2 ^ 30)) rfl rfl hL hsz hcap hfresh
  exact ⟨b, heap', h, h1, h2, h3, h4, h7⟩

/-- What a successful `allocate_memory` does to the shape members: `dim` and
`vec_stride` are kept and only entry `0` of `vec_length` is written. -/
theorem allocate_memory_shape {T : Type} [Zero T] (sizeofT fresh : Nat)
    (self b : linear_memory) (heap heap' : Heap T) (L : Int)
    (h : allocate_memory sizeofT fresh self heap L = .ok (b, heap')) :
    b.length = L ∧ b.dim = self.dim ∧ b.vec_stride = self.vec_stride ∧
    b.vec_length = self.vec_length.set 0 L := by
  simp only [allocate_memory, vecSet] at h
  split_ifs at h
  simp only [reduceCtorEq, Except.ok.injEq, Prod.mk.injEq] at h
  obtain ⟨rfl, _⟩ := h
  exact ⟨rfl, rfl, rfl, rfl⟩

/-- A buffer allocated below the size cap holds storage for its `length`
elements. -/
theorem hasStorage_allocate_memory {T : Type} [Zero T] (sizeofT fresh : Nat)
    (self b : linear_memory) (heap heap' : Heap T) (L : Int) (hsz : 0 < sizeofT)
    (hcap : L * sizeofT < 2 ^ 31)
    (h : allocate_memory sizeofT fresh self heap L = .ok (b, heap')) :
    HasStorage b heap' := by
  simp only [allocate_memory, vecSet] at h
  split_ifs at h with h1 h2 h3 h4 h5
  simp only [reduceCtorEq, Except.ok.injEq, Prod.mk.injEq] at h
  obtain ⟨rfl, rfl⟩ := h
  obtain ⟨n, rfl⟩ : ∃ n : Nat, L = n := ⟨L.toNat, by omega⟩
  have hn : n * sizeofT < 2 ^ 31 := by exact_mod_cast hcap
  have hn' : n < 2 ^ 31 := lt_of_le_of_lt (Nat.le_mul_of_pos_right n hsz) hn
  have hmod : ((n : Int) % 2 ^ 64).toNat = n := by omega
  refine ⟨h4, _, Function.update_same _ _ _, ?_⟩
  simp only [List.length_replicate, hmod, Nat.cast_le]
  rw [Nat.le_div_iff_mul_le hsz]
  omega

/-- C1 (evaluation at the failing input): a buffer of shape `[2, 5]` that has been
moved from holds no storage; `allocate_memory (3)` on it succeeds with
`length = 3` but leaves `dim = 2`, the shape `[3, 5]` and the strides `[5, 1]`,
not the one-dimensional shape `[3]` with strides `[1]`. -/
theorem C1_allocate_after_move_keeps_old_shape :
    allocate_after_move.map (fun a => (a.length, a.dim, a.vec_length, a.vec_stride))
      = .ok (3, 2, [3, 5], [5, 1]) := by
  rfl

/-- The size check of `allocate_memory` compares the `size_t` product, reduced
modulo `2 ^ 64`, with `2 ^ 31`. -/
theorem allocate_memory_size_limit_iff {T : Type} [Zero T] (sizeofT fresh : Nat)
    (self : linear_memory) (heap : Heap T) (L : Int) (hptr : self.ptr = 0) (hL : 0 < L)
    (hlong : isLong L) :
    allocate_memory sizeofT fresh self heap L = .error .SizeLimitExceeded ↔
      2 ^ 31 ≤ (L.toNat * sizeofT) % 2 ^ 64 := by
  have hL' : ¬ (L ≤ 0) := by omega
  have hmod : (L % 2 ^ 64).toNat = L.toNat := by
    unfold isLong at hlong
    rw [Int.emod_eq_of_lt (by omega) (by omega)]
  simp only [allocate_memory, hptr, hmod, ne_eq, not_true_eq_false, if_false, hL', vecSet]
  split_ifs with h1 h2 h3
  · exact ⟨fun _ => h1, fun _ => rfl⟩
  · exact ⟨fun h => (by cases h), fun h => absurd h h1⟩
  · exact ⟨fun h => (by cases h), fun h => absurd h h1⟩
  · exact ⟨fun h => (by cases h), fun h => absurd h h1⟩

/-- Where the product `L * sizeof(T)` does not exceed the range of `size_t`, a
request of 2 GiB or more is refused with `SizeLimitExceeded`. -/
theorem allocate_memory_size_limit {T : Type} [Zero T] (sizeofT fresh : Nat)
    (self : linear_memory) (heap : Heap T) (L : Int) (hptr : self.ptr = 0) (hL : 0 < L)
    (hlong : isLong L) (hlo : 2 ^ 31 ≤ L * sizeofT) (hhi : L * sizeofT < 2 ^ 64) :
    allocate_memory sizeofT fresh self heap L = .error .SizeLimitExceeded := by
  rw [allocate_memory_size_limit_iff sizeofT fresh self heap L hptr hL hlong]
  obtain ⟨n, rfl⟩ : ∃ n : Nat, L = n := ⟨L.toNat, by omega⟩
  have h1 : 2 ^ 31 ≤ n * sizeofT := by exact_mod_cast hlo
  have h2 : n * sizeofT < 2 ^ 64 := by exact_mod_cast hhi
  rw [Int.toNat_ofNat, Nat.mod_eq_of_lt h2]
  exact h1

/-- C2 (evaluation at the failing input): for `T = int` (`sizeof(T) = 4`) and
`n = 2 ^ 62` the byte size `n * 4 = 2 ^ 64` is at least `2 ^ 31`, but the
`size_t` product is `0`, the check passes, and with a succeeding allocator
`allocate_memory` returns a buffer of `length = 2 ^ 62` over a block of zero
elements. -/
theorem C2_allocate_memory_size_check_wraps :
    (2 : Int) ^ 31 ≤ 2 ^ 62 * 4 ∧ isLong (2 ^ 62) ∧
    (allocate_memory (T := Int) 4 100 {} Heap.empty (2 ^ 62)).map
      (fun r => (r.1.length, r.1.ptr, r.2 100)) = .ok (2 ^ 62, 100, some []) := by
  refine ⟨by norm_num, by decide, ?_⟩
  rfl

/-! ## `attach_dimension` -/

/-- C3 (counterexample): on a 10-element buffer `attach_dimension` accepts the
shapes `{2, -9223372036854775803}` and `{7, 5270498306774157606}`, whose
extents are `long` values and whose products, as mathematical integers, are
not `10`: the `long` product of each is `10`. -/
theorem C3_attach_dimension_accepts_wrapped_product :
    (isLong (-9223372036854775803) ∧
      ([2, -9223372036854775803] : List Int).prod ≠ 10 ∧
      ∃ b, attach_dimension
        { bool_manage_memory := true, length := 10, ptr := 100, vec_length := [10] }
        [2, -9223372036854775803] = .ok b) ∧
    (isLong 5270498306774157606 ∧
      ([7, 5270498306774157606] : List Int).prod ≠ 10 ∧
      ∃ b, attach_dimension
        { bool_manage_memory := true, length := 10, ptr := 100, vec_length := [10] }
        [7, 5270498306774157606] = .ok b) :=
  ⟨⟨by decide, by decide, _, rfl⟩, ⟨by decide, by decide, _, rfl⟩⟩

/-- C3 (amended): `attach_dimension (shape)` succeeds if and only if the `long`
product of the extents of `shape` (the mathematical product reduced to 64-bit
two's complement; `1` for the empty shape) equals `length`, and when that
product differs the call fails with `DimensionMismatch`; for a shape whose
mathematical product fits a `long` it succeeds if and only if that product
equals `length`. -/
theorem C3_attach_dimension_succeeds_iff (self : linear_memory) (shape : List Int) :
    ((∃ b, attach_dimension self shape = .ok b) ↔ wrapLong shape.prod = self.length) ∧
    (wrapLong shape.prod ≠ self.length →
      attach_dimension self shape = .error .DimensionMismatch) ∧
    (isLong shape.prod →
      ((∃ b, attach_dimension self shape = .ok b) ↔ shape.prod = self.length)) ∧
    ((∃ b, attach_dimension self [] = .ok b) ↔ self.length = 1) := by
  have key : ∀ V : List Int,
      ((∃ b, attach_dimension self V = .ok b) ↔ wrapLong V.prod = self.length) := by
    intro V
    rw [attach_dimension_eq]
    by_cases h : self.length = wrapLong V.prod
    · simp [h]
    · simp only [ne_eq, h, not_false_eq_true, if_true]
      constructor
      · rintro ⟨b, hb⟩; cases hb
      · intro h'; exact absurd h'.symm h
  refine ⟨key shape, ?_, ?_, ?_⟩
  · intro h
    rw [attach_dimension_eq, if_pos (fun h' => h h'.symm)]
  · intro hl
    rw [key shape, wrapLong_of_isLong hl]
  · rw [key [], List.prod_nil, wrapLong_one]
    exact eq_comm

/-- C3 (amended) at a concrete input: a 10-element buffer accepts the shape `[2, 5]` and
refuses the shape `[3, 5]` with `DimensionMismatch`. -/
theorem C3_attach_dimension_succeeds_iff_witness :
    (∃ b, attach_dimension { length := 10, ptr := 100 } [2, 5] = .ok b) ∧
    attach_dimension { length := 10, ptr := 100 } [3, 5] = .error .DimensionMismatch :=
  ⟨(C3_attach_dimension_succeeds_iff { length := 10, ptr := 100 } [2, 5]).1.2 (by decide),
   (C3_attach_dimension_succeeds_iff { length := 10, ptr := 100 } [3, 5]).2.1 (by decide)⟩

theorem load_of_hasStorage {T : Type} (self : linear_memory) (heap : Heap T) (ind : Int)
    (hst : HasStorage self heap) (h0 : 0 ≤ ind) (h1 : ind < self.length) :
    ∃ x, load heap self.ptr ind.toNat = .ok x := by
  obtain ⟨_, xs, hxs, hlen⟩ := hst
  have hlt : ind.toNat < xs.length := by omega
  exact ⟨xs[ind.toNat], by simp [load, hxs, List.getElem?_eq_getElem hlt]⟩

theorem ctor_shape_attached {T : Type} [Zero T] (sizeofT fresh : Nat) (heap0 heap : Heap T)
    (V : List Int) (b : linear_memory) (h : ctor_shape sizeofT fresh heap0 V = .ok (b, heap)) :
    ∃ self, attach_dimension self V = .ok b := by
  unfold ctor_shape at h
  simp only [bind, Except.bind, pure, Except.pure] at h
  split at h
  · cases h
  · split at h
    · cases h
    · rename_i p _
      split at h
      · cases h
      · rename_i b' hb'
        cases h
        exact ⟨p.1, hb'⟩

theorem at2_row_major {T : Type} (b : linear_memory) (heap : Heap T) (r c i j : Int)
    (hatt : ∃ self, attach_dimension self [r, c] = .ok b)
    (hlen : b.length = r * c) (hlong : isLong b.length) (hst : HasStorage b heap)
    (hi : 0 ≤ i ∧ i < r) (hj : 0 ≤ j ∧ j < c) :
    at2 b i j = .ok (i * c + j) ∧ ∃ x, load heap b.ptr (i * c + j).toNat = .ok x := by
  obtain ⟨self, hself⟩ := hatt
  rw [attach_dimension_eq] at hself
  split_ifs at hself with hne
  have hb : b = { self with vec_length := [r, c], dim := ([r, c] : List Int).length,
                            vec_stride := rowMajorStrides [r, c] } := by
    cases hself; rfl
  have hdim : b.dim = 2 := by rw [hb]; rfl
  have hstr : b.vec_stride = [wrapLong c, 1] := by
    rw [hb]; simp [rowMajorStrides, List.range_succ, wrapLong_one]
  unfold isLong at hlong
  have hr : 1 ≤ r := by omega
  have hc : 1 ≤ c := by omega
  have h1 : 0 ≤ i * c := mul_nonneg hi.1 (by omega)
  have h2 : 0 ≤ (r - 1 - i) * c := mul_nonneg (by omega) (by omega)
  have h3 : 0 ≤ (r - 1) * (c - 1) := mul_nonneg (by omega) (by omega)
  have h4 : i * c + j < r * c := by nlinarith
  have h5 : c ≤ r * c := by nlinarith
  have hwc : wrapLong c = c := wrapLong_of_isLong ⟨by omega, by omega⟩
  have hwic : wrapLong (i * c) = i * c := wrapLong_of_isLong ⟨by omega, by omega⟩
  have hwj : wrapLong j = j := wrapLong_of_isLong ⟨by omega, by omega⟩
  have hws : wrapLong (i * c + j) = i * c + j := wrapLong_of_isLong ⟨by omega, by omega⟩
  have hin : 0 ≤ i * c + j ∧ i * c + j < b.length := ⟨by omega, by omega⟩
  refine ⟨?_, load_of_hasStorage b heap _ hst hin.1 hin.2⟩
  unfold at2
  rw [hstr, hwc]
  simp only [hdim, hst.1, ne_eq, not_true_eq_false, if_false, vecAt, bind, Except.bind,
    List.getElem?_cons_zero, List.getElem?_cons_succ, mul_one, hwic, hwj, hws]
  rw [if_pos hin]

/-- C5: for a buffer of length `r * c` to which the shape `[r, c]` has been attached
(by `attach_dimension` or by the constructor from a shape) and `0 <= i < r`,
`0 <= j < c`, the accessor `at (i, j)` succeeds and denotes the element at flat
offset `i * c + j`; with contents `0..9`, `at (1, 1)` is `6` under the shape
`[2, 5]` and `3` under the shape `[5, 2]` (second and third block of `main.cpp`). -/
theorem C5_at2_row_major_offset :
    (∀ (T : Type) [Zero T] (b : linear_memory) (heap : Heap T) (r c i j : Int),
      ((∃ self, attach_dimension self [r, c] = .ok b) ∨
        (∃ (sizeofT fresh : Nat) (heap0 : Heap T),
          ctor_shape sizeofT fresh heap0 [r, c] = .ok (b, heap))) →
      b.length = r * c → isLong b.length → HasStorage b heap →
      0 ≤ i ∧ i < r → 0 ≤ j ∧ j < c →
      at2 b i j = .ok (i * c + j) ∧ ∃ x, load heap b.ptr (i * c + j).toNat = .ok x) ∧
    main_block2 = .ok 6 ∧ main_block3 = .ok 3 := by
  refine ⟨?_, rfl, rfl⟩
  intro T _ b heap r c i j hatt hlen hlong hst hi hj
  have hatt' : ∃ self, attach_dimension self [r, c] = .ok b := by
    rcases hatt with h | ⟨sizeofT, fresh, heap0, h⟩
    · exact h
    · exact ctor_shape_attached sizeofT fresh heap0 heap [r, c] b h
  exact at2_row_major b heap r c i j hatt' hlen hlong hst hi hj

/-- C5 at a concrete input: a 10-element buffer with the shape `[2, 5]`, indices
`(1, 1)`: the flat offset is `6`. -/
theorem C5_at2_row_major_offset_witness :
    at2 { length := 10, ptr := 100, dim := 2, vec_length := [2, 5], vec_stride := [5, 1] } 1 1
      = .ok (1 * 5 + 1) ∧
    ∃ x, load (Function.update Heap.empty 100 (some (List.range 10))) 100
      ((1 : Int) * 5 + 1).toNat = .ok x :=
  C5_at2_row_major_offset.1 Nat
    { length := 10, ptr := 100, dim := 2, vec_length := [2, 5], vec_stride := [5, 1] }
    (Function.update Heap.empty 100 (some (List.range 10))) 2 5 1 1
    (Or.inl ⟨{ length := 10, ptr := 100 }, rfl⟩) rfl (by decide)
    ⟨by decide, List.range 10, by simp, by decide⟩ (by decide) (by decide)

theorem add_index_term_ok (I S : List Int) (i : Nat) (acc : Int) (hI : i < I.length)
    (hS : i < S.length) :
    add_index_term I S i acc = .ok (wrapLong (acc + wrapLong (I[i] * S[i]))) := by
  simp [add_index_term, vecAt_of_lt I i hI, vecAt_of_lt S i hS, bind, Except.bind, pure,
    Except.pure]

theorem forLoop_add_index_term (I S : List Int) : ∀ (k i : Nat) (acc : Int),
    wrapLong acc = acc → i + k ≤ I.length → i + k ≤ S.length →
    forLoop (add_index_term I S) i k acc
      = .ok (wrapLong (acc + ((List.zipWith (· * ·) (I.drop i) (S.drop i)).take k).sum)) := by
  intro k
  induction k with
  | zero => intro i acc hacc _ _; simp [forLoop, hacc]
  | succ k ih =>
    intro i acc _ hI hS
    have hi : i < I.length := by omega
    have hs : i < S.length := by omega
    rw [forLoop_succ_ok _ _ _ _ _ (add_index_term_ok I S i acc hi hs)]
    rw [ih (i + 1) _ (wrapLong_wrapLong _) (by omega) (by omega)]
    rw [List.drop_eq_getElem_cons hi, List.drop_eq_getElem_cons hs, List.zipWith_cons_cons,
      List.take_succ_cons, List.sum_cons, wrapLong_add_left, add_right_comm,
      wrapLong_add_right, add_right_comm, add_assoc]

theorem flat_index_eq (self : linear_memory) (vec_ind : List Int)
    (hdim : (vec_ind.length : Int) = self.dim) (hstr : self.vec_stride.length = vec_ind.length) :
    flat_index self vec_ind = .ok (flatOffset vec_ind self.vec_stride) := by
  unfold flat_index flatOffset
  rw [← hdim, Int.toNat_ofNat,
    forLoop_add_index_term vec_ind self.vec_stride vec_ind.length 0 0 (by decide) (by omega)
      (by omega)]
  rw [List.take_of_length_le (by simp [hstr])]
  simp

theorem shapeConsistent_default : ShapeConsistent {} := ⟨rfl, rfl⟩

theorem shapeConsistent_attach_dimension (self b : linear_memory) (V : List Int)
    (h : attach_dimension self V = .ok b) : ShapeConsistent b := by
  rw [attach_dimension_eq] at h
  split_ifs at h
  cases h
  exact ⟨rfl, by simp [rowMajorStrides]⟩

theorem shapeConsistent_allocate_memory {T : Type} [Zero T] (sizeofT fresh : Nat)
    (self b : linear_memory) (heap heap' : Heap T) (L : Int) (hs : ShapeConsistent self)
    (h : allocate_memory sizeofT fresh self heap L = .ok (b, heap')) : ShapeConsistent b := by
  simp only [allocate_memory, vecSet] at h
  split_ifs at h
  simp only [reduceCtorEq, Except.ok.injEq, Prod.mk.injEq] at h
  obtain ⟨rfl, _⟩ := h
  exact ⟨by simpa using hs.1, by simpa using hs.2⟩

theorem copy_element_ok {T : Type} (heap : Heap T) (dst src i : Nat) (xs ys : List T)
    (hd : heap dst = some ys) (hs : heap src = some xs) (hi : i < xs.length)
    (hi' : i < ys.length) :
    copy_element dst src i heap = .ok (Function.update heap dst (some (ys.set i xs[i]))) := by
  simp [copy_element, load, store, hd, hs, List.getElem?_eq_getElem hi, hi', bind, Except.bind]

theorem forLoop_copy_element {T : Type} (dst src : Nat) (xs : List T) (hne : dst ≠ src) :
    ∀ (k i : Nat) (heap : Heap T) (ys : List T), heap dst = some ys → heap src = some xs →
      i + k ≤ xs.length → i + k ≤ ys.length →
      ∃ ys', forLoop (copy_element dst src) i k heap
          = .ok (Function.update heap dst (some ys')) ∧
        ys'.length = ys.length ∧
        (∀ t, i ≤ t → t < i + k → ys'[t]? = xs[t]?) ∧
        (∀ t, t < i → ys'[t]? = ys[t]?) := by
  intro k
  induction k with
  | zero =>
    intro i heap ys hd _ _ _
    refine ⟨ys, ?_, rfl, fun t h1 h2 => by omega, fun t _ => rfl⟩
    rw [forLoop, ← hd, Function.update_eq_self]
  | succ k ih =>
    intro i heap ys hd hs hx hy
    have hi : i < xs.length := by omega
    have hi' : i < ys.length := by omega
    rw [forLoop_succ_ok _ _ _ _ _ (copy_element_ok heap dst src i xs ys hd hs hi hi')]
    obtain ⟨ys', h1, h2, h3, h4⟩ := ih (i + 1)
      (Function.update heap dst (some (ys.set i xs[i]))) (ys.set i xs[i])
      (by simp) (by rw [Function.update_noteq (Ne.symm hne)]; exact hs) (by omega)
      (by simp; omega)
    refine ⟨ys', ?_, by simpa using h2, ?_, ?_⟩
    · rw [h1, Function.update_idem]
    · intro t ht1 ht2
      by_cases hti : t = i
      · subst hti
        rw [h4 t (by omega), List.getElem?_set_self hi', List.getElem?_eq_getElem hi]
      · exact h3 t (by omega) (by omega)
    · intro t ht
      rw [h4 t (by omega), List.getElem?_set_ne (by omega)]

/-- C7: for two distinct allocations of equal positive length, `copy` succeeds;
afterwards element `i` of the destination equals element `i` of the source for
every `i` in `[0, length)`, the destination object (its `length`, shape,
strides and `dim`) and the source object are what they were, and no storage
other than the destination's is written (the source's contents are unchanged). -/
theorem C7_copy_equal_length {T : Type} (w : World T) (this v : Nat)
    (hne : this ≠ v) (hptr : (w.objs this).ptr ≠ (w.objs v).ptr)
    (hself : HasStorage (w.objs this) w.heap) (hsrc : HasStorage (w.objs v) w.heap)
    (hlen : (w.objs this).length = (w.objs v).length) (hpos : 0 < (w.objs this).length) :
    ∃ w', copy w this v = .ok w' ∧
      (∀ i : Nat, (i : Int) < (w.objs this).length →
        ∃ x, load w.heap (w.objs v).ptr i = .ok x ∧
          load w'.heap (w'.objs this).ptr i = .ok x ∧
          load w'.heap (w'.objs v).ptr i = .ok x) ∧
      w'.objs this = w.objs this ∧ w'.objs v = w.objs v ∧
      (∀ p, p ≠ (w.objs this).ptr → w'.heap p = w.heap p) := by
  obtain ⟨hp1, ys, hys, hyl⟩ := hself
  obtain ⟨hp2, xs, hxs, hxl⟩ := hsrc
  obtain ⟨ys', h1, h2, h3, _⟩ := forLoop_copy_element (w.objs this).ptr (w.objs v).ptr xs hptr
    (w.objs this).length.toNat 0 w.heap ys hys hxs (by omega) (by omega)
  have hc : copy w this v
      = .ok { w with heap := Function.update w.heap (w.objs this).ptr (some ys') } := by
    unfold copy
    rw [if_neg (by simp [hne, hptr]), if_neg (by simp [hp1, hp2]),
      if_neg (by simp [hlen]; omega), h1]
  refine ⟨_, hc, ?_, rfl, rfl, ?_⟩
  · intro i hi
    have hix : i < xs.length := by omega
    have hget : ys'[i]? = some xs[i] := by
      rw [h3 i (by omega) (by omega), List.getElem?_eq_getElem hix]
    refine ⟨xs[i], ?_, ?_, ?_⟩
    · simp [load, hxs, List.getElem?_eq_getElem hix]
    · simp [load, hget]
    · simp [load, Function.update_noteq (Ne.symm hptr), hxs, List.getElem?_eq_getElem hix]
  · intro p hp
    simp [Function.update_noteq hp]

/-- C7 at a concrete input: in `two_buffers`, object 0 copies from object 1. -/
theorem C7_copy_equal_length_witness :
    (0 : Nat) ≠ 1 ∧ (two_buffers.objs 0).ptr ≠ (two_buffers.objs 1).ptr ∧
    ∃ w', copy two_buffers 0 1 = .ok w' ∧
      (∀ i : Nat, (i : Int) < (two_buffers.objs 0).length →
        ∃ x, load two_buffers.heap (two_buffers.objs 1).ptr i = .ok x ∧
          load w'.heap (w'.objs 0).ptr i = .ok x ∧
          load w'.heap (w'.objs 1).ptr i = .ok x) ∧
      w'.objs 0 = two_buffers.objs 0 ∧ w'.objs 1 = two_buffers.objs 1 ∧
      (∀ p, p ≠ (two_buffers.objs 0).ptr → w'.heap p = two_buffers.heap p) :=
  ⟨by decide, by decide,
   C7_copy_equal_length two_buffers 0 1 (by decide) (by decide)
     ⟨by decide, [0, 0, 0], rfl, by decide⟩ ⟨by decide, [7, 8, 9], rfl, by decide⟩
     (by decide) (by decide)⟩

/-- When exactly one of two distinct buffers has no storage, `copy` fails with
`NullAccess`. -/
theorem copy_one_null {T : Type} (w : World T) (this v : Nat) (hne : this ≠ v)
    (h : ((w.objs this).ptr = 0 ∧ (w.objs v).ptr ≠ 0) ∨
      ((w.objs this).ptr ≠ 0 ∧ (w.objs v).ptr = 0)) :
    copy w this v = .error .NullAccess := by
  unfold copy
  rcases h with ⟨h1, h2⟩ | ⟨h1, h2⟩
  · rw [if_neg (by simp [hne, h1]; exact fun h => h2 h.symm), if_pos (Or.inl h1)]
  · rw [if_neg (by simp [hne, h2]; exact h1), if_pos (Or.inr h2)]

/-- When two distinct buffers both have no storage, `copy` fails with
`SelfAssignment`: the test `this->ptr == v.ptr` comes first and holds for two
null pointers. -/
theorem copy_both_null {T : Type} (w : World T) (this v : Nat)
    (h1 : (w.objs this).ptr = 0) (h2 : (w.objs v).ptr = 0) :
    copy w this v = .error .SelfAssignment := by
  unfold copy
  rw [if_pos (Or.inr (by rw [h1, h2]))]

/-- C8 (evaluation at the failing input): for two distinct default-constructed
buffers, neither holding storage, `copy` fails with `SelfAssignment`, not with
`NullAccess`. -/
theorem C8_copy_both_null_reports_self_copy :
    (default_world.objs 0).ptr = 0 ∧ (default_world.objs 1).ptr = 0 ∧
    copy default_world 0 1 = .error .SelfAssignment :=
  ⟨rfl, rfl, copy_both_null default_world 0 1 rfl rfl⟩

/-! ## Move construction and move assignment -/

/-- C9: move-constructing `d` from `v` gives `d` the `length` and the storage
(hence the contents) `v` had, and leaves `v` with `length == 0`, no storage and
not owning. -/
theorem C9_move_ctor_transfers {T : Type} (w : World T) (d v : Nat) (hne : d ≠ v) :
    ((move_ctor w d v).objs d).length = (w.objs v).length ∧
    ((move_ctor w d v).objs d).ptr = (w.objs v).ptr ∧
    (move_ctor w d v).heap = w.heap ∧
    (∀ i, load (move_ctor w d v).heap ((move_ctor w d v).objs d).ptr i
      = load w.heap (w.objs v).ptr i) ∧
    ((move_ctor w d v).objs v).length = 0 ∧
    ((move_ctor w d v).objs v).ptr = 0 ∧
    ((move_ctor w d v).objs v).bool_manage_memory = false := by
  have hvd : v ≠ d := Ne.symm hne
  refine ⟨?_, ?_, rfl, ?_, ?_, ?_, ?_⟩ <;>
    simp [move_ctor, move_transfer, Function.update, hne, hvd]

/-- C9 at a concrete input: in `two_buffers`, a new object 2 is move-constructed
from object 1. -/
theorem C9_move_ctor_transfers_witness :
    (2 : Nat) ≠ 1 ∧
    ((move_ctor two_buffers 2 1).objs 2).length = 3 ∧
    ((move_ctor two_buffers 2 1).objs 2).ptr = 200 ∧
    ((move_ctor two_buffers 2 1).objs 1).length = 0 ∧
    ((move_ctor two_buffers 2 1).objs 1).ptr = 0 ∧
    ((move_ctor two_buffers 2 1).objs 1).bool_manage_memory = false :=
  ⟨by decide,
   (C9_move_ctor_transfers two_buffers 2 1 (by decide)).1,
   (C9_move_ctor_transfers two_buffers 2 1 (by decide)).2.1,
   (C9_move_ctor_transfers two_buffers 2 1 (by decide)).2.2.2.2.1,
   (C9_move_ctor_transfers two_buffers 2 1 (by decide)).2.2.2.2.2.1,
   (C9_move_ctor_transfers two_buffers 2 1 (by decide)).2.2.2.2.2.2⟩

/-- Move assignment into a buffer that holds storage or owns fails with
`MoveIntoNonEmpty`. -/
theorem move_assign_nonempty {T : Type} (w : World T) (d v : Nat)
    (h : (w.objs d).ptr ≠ 0 ∨ (w.objs d).bool_manage_memory = true) :
    move_assign w d v = .error .MoveIntoNonEmpty := by
  unfold move_assign
  rw [if_pos (by simpa using h)]

/-- Move assignment into an empty, non-owning buffer from a distinct buffer
that holds storage succeeds and transfers `length` and storage as the move
constructor does. -/
theorem move_assign_from_allocated {T : Type} (w : World T) (d v : Nat) (hne : d ≠ v)
    (hd : (w.objs d).ptr = 0) (hown : (w.objs d).bool_manage_memory = false)
    (hv : (w.objs v).ptr ≠ 0) :
    ∃ w', move_assign w d v = .ok w' ∧
      (w'.objs d).length = (w.objs v).length ∧ (w'.objs d).ptr = (w.objs v).ptr ∧
      w'.heap = w.heap ∧
      (w'.objs v).length = 0 ∧ (w'.objs v).ptr = 0 ∧
      (w'.objs v).bool_manage_memory = false := by
  have hvd : v ≠ d := Ne.symm hne
  refine ⟨move_transfer w d v, ?_, ?_, ?_, rfl, ?_, ?_, ?_⟩
  · unfold move_assign
    rw [if_neg (by simp [hd, hown]), if_neg (by simp [hne, hd]; exact fun h => hv h.symm)]
  all_goals simp [move_transfer, Function.update, hne, hvd]

/-- Move assignment into an empty buffer from a buffer without storage fails
with `SelfAssignment`: the test `this->ptr == v.ptr` holds for two null
pointers. -/
theorem move_assign_from_null {T : Type} (w : World T) (d v : Nat)
    (hd : (w.objs d).ptr = 0) (hown : (w.objs d).bool_manage_memory = false)
    (hv : (w.objs v).ptr = 0) :
    move_assign w d v = .error .SelfAssignment := by
  unfold move_assign
  rw [if_neg (by simp [hd, hown]), if_pos (Or.inr (by rw [hd, hv]))]

/-- C10 (evaluation at the failing input): for two distinct default-constructed
buffers `d` (empty, not owning) and `v`, the move assignment `d = std::move (v)`
fails with `SelfAssignment`; it does not succeed. -/
theorem C10_move_assign_from_empty_source_fails :
    (default_world.objs 0).ptr = 0 ∧ (default_world.objs 0).bool_manage_memory = false ∧
    move_assign default_world 0 1 = .error .SelfAssignment :=
  ⟨rfl, rfl, move_assign_from_null default_world 0 1 rfl rfl rfl⟩

/-! ## Self move -/

/-- C11 (counterexample): object 0 of `two_buffers` holds storage; move-assigning it
to itself fails with `MoveIntoNonEmpty`, not with `SelfAssignment`. -/
theorem C11_self_move_allocated_not_self_assignment :
    (two_buffers.objs 0).ptr ≠ 0 ∧
    move_assign two_buffers 0 0 = .error .MoveIntoNonEmpty ∧
    move_assign two_buffers 0 0 ≠ .error .SelfAssignment := by
  refine ⟨by decide, rfl, ?_⟩
  intro h
  cases h

/-- C11 (amended): move-assigning a buffer to itself always fails: with
`MoveIntoNonEmpty` when the buffer holds storage or is owning (the test of line
203 comes first), with `SelfAssignment` when it is empty and non-owning. -/
theorem C11_self_move_fails {T : Type} (w : World T) (b : Nat) :
    ((w.objs b).ptr ≠ 0 ∨ (w.objs b).bool_manage_memory = true →
      move_assign w b b = .error .MoveIntoNonEmpty) ∧
    ((w.objs b).ptr = 0 ∧ (w.objs b).bool_manage_memory = false →
      move_assign w b b = .error .SelfAssignment) := by
  constructor
  · intro h
    exact move_assign_nonempty w b b h
  · rintro ⟨h1, h2⟩
    unfold move_assign
    rw [if_neg (by simp [h1, h2]), if_pos (Or.inl rfl)]

/-- C11 (amended) at concrete inputs: an allocated buffer and a default-constructed
buffer, each move-assigned to itself. -/
theorem C11_self_move_fails_witness :
    move_assign two_buffers 0 0 = .error .MoveIntoNonEmpty ∧
    move_assign default_world 0 0 = .error .SelfAssignment :=
  ⟨(C11_self_move_fails two_buffers 0).1 (Or.inl (by decide)),
   (C11_self_move_fails default_world 0).2 ⟨rfl, rfl⟩⟩

/-! ## Reductions -/

theorem load_of_getElem? {T : Type} {heap : Heap T} {p i : Nat} {xs : List T} {x : T}
    (hp : heap p = some xs) (hx : xs[i]? = some x) : load heap p i = .ok x := by
  simp [load, hp, hx]

theorem add_product_ok {T : Type} [Add T] [Mul T] (heap : Heap T) (p1 p2 i : Nat) (acc : T)
    (xs ys : List T) (h1 : heap p1 = some xs) (h2 : heap p2 = some ys) (hx : i < xs.length)
    (hy : i < ys.length) :
    add_product heap p1 p2 i acc = .ok (acc + xs[i] * ys[i]) := by
  simp [add_product, load_of_getElem? h1 (List.getElem?_eq_getElem hx),
    load_of_getElem? h2 (List.getElem?_eq_getElem hy), bind, Except.bind, pure, Except.pure]

theorem forLoop_add_product {T : Type} [Add T] [Mul T] (heap : Heap T) (p1 p2 : Nat)
    (xs ys : List T) (h1 : heap p1 = some xs) (h2 : heap p2 = some ys) :
    ∀ (k i : Nat) (acc : T), i + k ≤ xs.length → i + k ≤ ys.length →
      forLoop (add_product heap p1 p2) i k acc
        = .ok ((List.zipWith (· * ·) ((xs.drop i).take k) ((ys.drop i).take k)).foldl
            (· + ·) acc) := by
  intro k
  induction k with
  | zero => intro i acc _ _; simp [forLoop]
  | succ k ih =>
    intro i acc hx hy
    have hix : i < xs.length := by omega
    have hiy : i < ys.length := by omega
    rw [forLoop_succ_ok _ _ _ _ _ (add_product_ok heap p1 p2 i acc xs ys h1 h2 hix hiy),
      ih (i + 1) _ (by omega) (by omega), List.drop_eq_getElem_cons hix,
      List.drop_eq_getElem_cons hiy]
    simp only [List.take_succ_cons, List.zipWith_cons_cons, List.foldl_cons]

/-- C12: for two buffers of equal positive length, `inner_product` returns the sum
of the `v1[i] * v2[i]`, accumulated from zero in index order over
`[0, length)`; when the lengths differ or one is zero or negative it fails with
`LengthMismatch`. -/
theorem C12_inner_product_sum {T : Type} [Zero T] [Add T] [Mul T] (heap : Heap T)
    (v1 v2 : linear_memory) :
    (v1.length = v2.length → 0 < v1.length →
      ∀ xs ys, heap v1.ptr = some xs → heap v2.ptr = some ys →
        v1.length ≤ (xs.length : Int) → v2.length ≤ (ys.length : Int) →
        inner_product heap v1 v2
          = .ok ((List.zipWith (· * ·) (xs.take v1.length.toNat)
              (ys.take v1.length.toNat)).foldl (· + ·) 0)) ∧
    (v1.length ≠ v2.length ∨ v1.length ≤ 0 ∨ v2.length ≤ 0 →
      inner_product heap v1 v2 = .error .LengthMismatch) := by
  constructor
  · intro hlen hpos xs ys h1 h2 hx hy
    unfold inner_product
    rw [if_neg (by omega),
      forLoop_add_product heap v1.ptr v2.ptr xs ys h1 h2 _ 0 0 (by omega) (by omega)]
    simp
  · intro h
    unfold inner_product
    rw [if_pos (by omega)]

/-- C12 at a concrete input: the inner product of the blocks `0, 0, 0` and
`7, 8, 9` of `two_buffers`, and of the second block with itself. -/
theorem C12_inner_product_sum_witness :
    inner_product two_buffers.heap (two_buffers.objs 0) (two_buffers.objs 1) = .ok 0 ∧
    inner_product two_buffers.heap (two_buffers.objs 1) (two_buffers.objs 1)
      = .ok (7 * 7 + 8 * 8 + 9 * 9) ∧
    inner_product two_buffers.heap (two_buffers.objs 0) (default_world.objs 0)
      = .error .LengthMismatch :=
  ⟨(C12_inner_product_sum two_buffers.heap (two_buffers.objs 0) (two_buffers.objs 1)).1
      (by decide) (by decide) [0, 0, 0] [7, 8, 9] rfl rfl (by decide) (by decide),
   (C12_inner_product_sum two_buffers.heap (two_buffers.objs 1) (two_buffers.objs 1)).1
      (by decide) (by decide) [7, 8, 9] [7, 8, 9] rfl rfl (by decide) (by decide),
   (C12_inner_product_sum two_buffers.heap (two_buffers.objs 0) (default_world.objs 0)).2
      (Or.inl (by decide))⟩

/-- C13 (counterexample): on a default-constructed buffer `L2_norm_square` returns
`0` while `inner_product (v, v)` fails with `LengthMismatch`. -/
theorem C13_l2_norm_square_differs_on_empty :
    L2_norm_square (T := Int) Heap.empty {} = .ok 0 ∧
    inner_product (T := Int) Heap.empty {} {} = .error .LengthMismatch ∧
    L2_norm_square (T := Int) Heap.empty {} ≠ inner_product Heap.empty {} {} := by
  refine ⟨rfl, rfl, ?_⟩
  intro h
  cases h

/-- C13 (amended): for a buffer of positive length `L2_norm_square (v)` and
`inner_product (v, v)` produce the same result; for a buffer of zero or
negative length (never allocated, or moved from) `L2_norm_square` returns zero
and `inner_product` fails with `LengthMismatch`. -/
theorem C13_l2_norm_square_inner_product {T : Type} [Zero T] [Add T] [Mul T] (heap : Heap T)
    (v : linear_memory) :
    (0 < v.length → L2_norm_square heap v = inner_product heap v v) ∧
    (v.length ≤ 0 → L2_norm_square heap v = .ok 0 ∧
      inner_product heap v v = .error .LengthMismatch) := by
  constructor
  · intro h
    unfold L2_norm_square inner_product
    rw [if_neg (by omega)]
  · intro h
    constructor
    · unfold L2_norm_square
      rw [Int.toNat_eq_zero.mpr h]
      rfl
    · unfold inner_product
      rw [if_pos (Or.inl h)]

/-- C13 (amended) at concrete inputs: object 1 of `two_buffers` and a
default-constructed buffer. -/
theorem C13_l2_norm_square_inner_product_witness :
    L2_norm_square two_buffers.heap (two_buffers.objs 1)
      = inner_product two_buffers.heap (two_buffers.objs 1) (two_buffers.objs 1) ∧
    L2_norm_square default_world.heap (default_world.objs 0) = .ok 0 :=
  ⟨(C13_l2_norm_square_inner_product two_buffers.heap (two_buffers.objs 1)).1 (by decide),
   ((C13_l2_norm_square_inner_product default_world.heap (default_world.objs 0)).2
      (by decide)).1⟩

/-! ## `allocate_memory`: the refused calls -/

/-- `allocate_memory` returns the state `allocate_memory_exit` gives when no error
is recorded, and otherwise fails with the recorded error. -/
theorem allocate_memory_eq_exit {T : Type} [Zero T] (sizeofT fresh : Nat)
    (self : linear_memory) (heap : Heap T) (L : Int) :
    allocate_memory sizeofT fresh self heap L =
      match allocate_memory_exit sizeofT fresh self heap L with
      | (s, none) => .ok s
      | (_, some e) => .error e := by
  simp only [allocate_memory, allocate_memory_exit]
  split_ifs <;> try rfl
  cases vecSet self.vec_length 0 L <;> rfl

/-- C16: on a buffer without storage `allocate_memory (n)` fails with `InvalidSize`
for every `n <= 0`; on a buffer that holds storage it fails with
`AllocationConflict` for every `n`; in both cases the run ends before any
member or any storage is written: the buffer (its `length`, shape and every
other member) and the heap (the contents) are what they were. -/
theorem C16_allocate_memory_refused {T : Type} [Zero T] (sizeofT fresh : Nat)
    (self : linear_memory) (heap : Heap T) (n : Int) :
    (self.ptr = 0 → n ≤ 0 →
      allocate_memory sizeofT fresh self heap n = .error .InvalidSize ∧
      allocate_memory_exit sizeofT fresh self heap n = ((self, heap), some .InvalidSize)) ∧
    (self.ptr ≠ 0 →
      allocate_memory sizeofT fresh self heap n = .error .AllocationConflict ∧
      allocate_memory_exit sizeofT fresh self heap n
        = ((self, heap), some .AllocationConflict)) := by
  constructor
  · intro h0 hn
    have h : allocate_memory_exit sizeofT fresh self heap n
        = ((self, heap), some .InvalidSize) := by
      simp only [allocate_memory_exit]
      rw [if_neg (by simp [h0]), if_pos hn]
    exact ⟨by rw [allocate_memory_eq_exit, h], h⟩
  · intro h0
    have h : allocate_memory_exit sizeofT fresh self heap n
        = ((self, heap), some .AllocationConflict) := by
      simp only [allocate_memory_exit]
      rw [if_pos h0]
    exact ⟨by rw [allocate_memory_eq_exit, h], h⟩

/-- C16 at concrete inputs: `allocate_memory (0)` and `allocate_memory (-5)` on a
default-constructed buffer, and a second `allocate_memory` on object 0 of
`two_buffers`. -/
theorem C16_allocate_memory_refused_witness :
    allocate_memory (T := Int) 4 100 {} Heap.empty 0 = .error .InvalidSize ∧
    allocate_memory (T := Int) 4 100 {} Heap.empty (-5) = .error .InvalidSize ∧
    allocate_memory 4 300 (two_buffers.objs 0) two_buffers.heap 3
      = .error .AllocationConflict ∧
    allocate_memory_exit 4 300 (two_buffers.objs 0) two_buffers.heap 3
      = ((two_buffers.objs 0, two_buffers.heap), some .AllocationConflict) :=
  ⟨((C16_allocate_memory_refused 4 100 {} Heap.empty 0).1 rfl (by decide)).1,
   ((C16_allocate_memory_refused 4 100 {} Heap.empty (-5)).1 rfl (by decide)).1,
   ((C16_allocate_memory_refused 4 300 (two_buffers.objs 0) two_buffers.heap 3).2
      (by decide)).1,
   ((C16_allocate_memory_refused 4 300 (two_buffers.objs 0) two_buffers.heap 3).2
      (by decide)).2⟩

/-! ## `ax_add_to` -/

theorem with_heap_ok {T : Type} (w : World T) (heap' : Heap T) :
    with_heap w (.ok heap') = .ok { w with heap := heap' } := rfl

theorem load_update_set_ne {T : Type} (heap : Heap T) (dst src i t : Nat) (ys : List T) (v : T)
    (hd : heap dst = some ys) (hne : t ≠ i) :
    load (Function.update heap dst (some (ys.set i v))) src t = load heap src t := by
  by_cases h : src = dst
  · subst h
    simp [load, hd, List.getElem?_set_ne (Ne.symm hne)]
  · simp [load, Function.update_noteq h]

theorem scalar_read_update {T : Type} (heap : Heap T) (dst : Nat) (v : Option (List T))
    (a : Scalar T) (hout : a.Outside dst) :
    a.read (Function.update heap dst v) = a.read heap := by
  cases a with
  | val x => rfl
  | elem q i =>
    have hq : q ≠ dst := hout
    simp [Scalar.read, load, Function.update_noteq hq]

theorem add_scaled_ok {T : Type} [Add T] [Mul T] (heap : Heap T) (dst src i : Nat)
    (a : Scalar T) (av x : T) (ys : List T) (hd : heap dst = some ys) (hi : i < ys.length)
    (ha : a.read heap = .ok av) (hs : load heap src i = .ok x) :
    add_scaled dst src a i heap
      = .ok (Function.update heap dst (some (ys.set i (ys[i] + av * x)))) := by
  simp [add_scaled, load_of_getElem? hd (List.getElem?_eq_getElem hi), ha, hs, store, hd, hi,
    bind, Except.bind]

theorem forLoop_add_scaled {T : Type} [Add T] [Mul T] (dst src : Nat) (a : Scalar T) (av : T)
    (hout : a.Outside dst) (X : Nat → T) :
    ∀ (k i : Nat) (heap : Heap T) (ys : List T), heap dst = some ys → i + k ≤ ys.length →
      a.read heap = .ok av →
      (∀ t, i ≤ t → t < i + k → load heap src t = .ok (X t)) →
      ∃ ys', forLoop (add_scaled dst src a) i k heap
          = .ok (Function.update heap dst (some ys')) ∧
        ys'.length = ys.length ∧
        (∀ t, i ≤ t → t < i + k → ys'[t]? = (ys[t]?).map (fun y => y + av * X t)) ∧
        (∀ t, t < i → ys'[t]? = ys[t]?) := by
  intro k
  induction k with
  | zero =>
    intro i heap ys hd _ _ _
    refine ⟨ys, ?_, rfl, fun t h1 h2 => by omega, fun t _ => rfl⟩
    rw [forLoop, ← hd, Function.update_eq_self]
  | succ k ih =>
    intro i heap ys hd hy ha hX
    have hi : i < ys.length := by omega
    rw [forLoop_succ_ok _ _ _ _ _
      (add_scaled_ok heap dst src i a av (X i) ys hd hi ha (hX i (le_refl i) (by omega)))]
    obtain ⟨ys', h1, h2, h3, h4⟩ := ih (i + 1)
      (Function.update heap dst (some (ys.set i (ys[i] + av * X i))))
      (ys.set i (ys[i] + av * X i)) (by simp) (by simp; omega)
      (by rw [scalar_read_update heap dst _ a hout]; exact ha)
      (fun t ht1 ht2 => by
        rw [load_update_set_ne heap dst src i t ys _ hd (by omega)]
        exact hX t (by omega) (by omega))
    refine ⟨ys', ?_, by simpa using h2, ?_, ?_⟩
    · rw [h1, Function.update_idem]
    · intro t ht1 ht2
      by_cases hti : t = i
      · subst hti
        rw [h4 t (by omega), List.getElem?_set_self hi, List.getElem?_eq_getElem hi]
        rfl
      · rw [h3 t (by omega) (by omega), List.getElem?_set_ne (Ne.symm hti)]
    · intro t ht
      rw [h4 t (by omega), List.getElem?_set_ne (by omega)]

/-- What `ax_add_to` does on two buffers of equal length (the same buffer
included) when the scalar is not bound to an element of the block of `y` and
reads `a`: it succeeds, writes no object member, leaves
`y[i] = y_before[i] + a * x_before[i]` on `[0, length)` and writes no block but
that of `y`. -/
theorem ax_add_to_result {T : Type} [Add T] [Mul T] (w : World T) (y x : Nat) (s : Scalar T)
    (a : T) (hread : s.read w.heap = .ok a) (hout : s.Outside (w.objs y).ptr)
    (hlen : (w.objs y).length = (w.objs x).length)
    (hst : 0 < (w.objs y).length →
      HasStorage (w.objs y) w.heap ∧ HasStorage (w.objs x) w.heap) :
    ∃ w', ax_add_to w y s x = .ok w' ∧ w'.objs = w.objs ∧
      (∀ i : Nat, (i : Int) < (w.objs y).length →
        ∃ yi xi, load w.heap (w.objs y).ptr i = .ok yi ∧
          load w.heap (w.objs x).ptr i = .ok xi ∧
          load w'.heap (w'.objs y).ptr i = .ok (yi + a * xi)) ∧
      (∀ p, p ≠ (w.objs y).ptr → w'.heap p = w.heap p) := by
  by_cases hpos : 0 < (w.objs y).length
  · obtain ⟨⟨_, ys, hys, hyl⟩, ⟨_, xs, hxs, hxl⟩⟩ := hst hpos
    have hX : ∀ t, 0 ≤ t → t < 0 + (w.objs y).length.toNat →
        load w.heap (w.objs x).ptr t = .ok ((xs[t]?).getD a) := by
      intro t _ ht
      have htx : t < xs.length := by omega
      rw [load_of_getElem? hxs (List.getElem?_eq_getElem htx)]
      simp [List.getElem?_eq_getElem htx]
    obtain ⟨ys', h1, _, h3, _⟩ := forLoop_add_scaled (w.objs y).ptr (w.objs x).ptr s a hout
      (fun t => (xs[t]?).getD a) (w.objs y).length.toNat 0 w.heap ys hys (by omega) hread hX
    refine ⟨{ w with heap := Function.update w.heap (w.objs y).ptr (some ys') }, ?_, rfl, ?_, ?_⟩
    · unfold ax_add_to
      rw [if_neg (by simp [hlen]), h1, with_heap_ok]
    · intro i hi
      have hiy : i < ys.length := by omega
      refine ⟨ys[i], (xs[i]?).getD a, load_of_getElem? hys (List.getElem?_eq_getElem hiy),
        hX i (by omega) (by omega), ?_⟩
      apply load_of_getElem? (Function.update_same _ _ _)
      rw [h3 i (by omega) (by omega), List.getElem?_eq_getElem hiy]
      rfl
    · intro p hp
      simp [Function.update_noteq hp]
  · refine ⟨w, ?_, rfl, fun i hi => by omega, fun p _ => rfl⟩
    unfold ax_add_to
    rw [if_neg (by simp [hlen]), Int.toNat_eq_zero.mpr (by omega)]
    rfl

/-- C14 (counterexample): with `y` holding `2, 3, 4`, `x` holding `1, 1, 1` and the
scalar bound to the element `y (0)`, as in `y.ax_add_to (y (0), x)`, the call
leaves `4, 7, 8` in `y`: the scalar read `2` at the call, and element `1` is
`7`, not `y_before[1] + a * x_before[1] = 3 + 2 * 1`. -/
theorem C14_ax_add_to_scalar_aliasing_y :
    (scalar_in_y.objs 0).length = (scalar_in_y.objs 1).length ∧
    Scalar.read scalar_in_y.heap (.elem 100 0) = .ok 2 ∧
    load scalar_in_y.heap (scalar_in_y.objs 0).ptr 1 = .ok 3 ∧
    load scalar_in_y.heap (scalar_in_y.objs 1).ptr 1 = .ok 1 ∧
    (ax_add_to scalar_in_y 0 (.elem 100 0) 1).map (fun w' => w'.heap 100)
      = .ok (some [4, 7, 8]) ∧
    (ax_add_to scalar_in_y 0 (.elem 100 0) 1).map
      (fun w' => load w'.heap (w'.objs 0).ptr 1) ≠ .ok (.ok (3 + 2 * 1)) := by
  refine ⟨rfl, rfl, rfl, rfl, rfl, ?_⟩
  intro h
  have h' : (Except.ok (Except.ok 7) : Except Err (Except Err Int))
      = .ok (.ok (3 + 2 * 1)) := h
  have h7 : (7 : Int) = 3 + 2 * 1 := by
    injection h' with h1
    injection h1
  exact absurd h7 (by decide)

/-- C14 (amended): when `y.length == x.length` and the scalar `a` is not bound to an
element of the storage of `y` (it is a temporary, a variable, or an element of
other storage), `y.ax_add_to (a, x)` leaves
`y[i] == y_before[i] + a * x_before[i]` for every `i` in `[0, length)`, also
when `x` is `y` itself, and changes no member of `y` (its `length` and shape
included); when the lengths differ it fails with `LengthMismatch`, whatever
the scalar is bound to. -/
theorem C14_ax_add_to_elementwise {T : Type} [Add T] [Mul T] (w : World T) (y x : Nat)
    (s : Scalar T) (a : T) :
    ((w.objs y).length = (w.objs x).length →
      s.read w.heap = .ok a → s.Outside (w.objs y).ptr →
      (0 < (w.objs y).length →
        HasStorage (w.objs y) w.heap ∧ HasStorage (w.objs x) w.heap) →
      ∃ w', ax_add_to w y s x = .ok w' ∧ w'.objs = w.objs ∧
        ∀ i : Nat, (i : Int) < (w.objs y).length →
          ∃ yi xi, load w.heap (w.objs y).ptr i = .ok yi ∧
            load w.heap (w.objs x).ptr i = .ok xi ∧
            load w'.heap (w'.objs y).ptr i = .ok (yi + a * xi)) ∧
    ((w.objs y).length ≠ (w.objs x).length →
      ax_add_to w y s x = .error .LengthMismatch) := by
  constructor
  · intro hlen hread hout hst
    obtain ⟨w', h1, h2, h3, _⟩ := ax_add_to_result w y x s a hread hout hlen hst
    exact ⟨w', h1, h2, h3⟩
  · intro h
    unfold ax_add_to
    rw [if_pos h]

/-- C14 (amended) at concrete inputs: in `two_buffers` object 0 (`0, 0, 0`) takes
twice object 1 (`7, 8, 9`); object 0 takes itself scaled by the element `8` of
the block of object 1; a default-constructed buffer has another length. -/
theorem C14_ax_add_to_elementwise_witness :
    (∃ w', ax_add_to two_buffers 0 (.val 2) 1 = .ok w' ∧ w'.objs = two_buffers.objs ∧
      ∀ i : Nat, (i : Int) < (two_buffers.objs 0).length →
        ∃ yi xi, load two_buffers.heap (two_buffers.objs 0).ptr i = .ok yi ∧
          load two_buffers.heap (two_buffers.objs 1).ptr i = .ok xi ∧
          load w'.heap (w'.objs 0).ptr i = .ok (yi + 2 * xi)) ∧
    (∃ w', ax_add_to two_buffers 0 (.elem 200 1) 0 = .ok w' ∧ w'.objs = two_buffers.objs ∧
      ∀ i : Nat, (i : Int) < (two_buffers.objs 0).length →
        ∃ yi xi, load two_buffers.heap (two_buffers.objs 0).ptr i = .ok yi ∧
          load two_buffers.heap (two_buffers.objs 0).ptr i = .ok xi ∧
          load w'.heap (w'.objs 0).ptr i = .ok (yi + 8 * xi)) ∧
    ax_add_to two_buffers 0 (.val 2) 2 = .error .LengthMismatch :=
  ⟨(C14_ax_add_to_elementwise two_buffers 0 1 (.val 2) 2).1 (by decide) rfl trivial
      (fun _ => ⟨⟨by decide, [0, 0, 0], rfl, by decide⟩,
        ⟨by decide, [7, 8, 9], rfl, by decide⟩⟩),
   (C14_ax_add_to_elementwise two_buffers 0 0 (.elem 200 1) 8).1 rfl rfl
      (show (200 : Nat) ≠ 100 by decide)
      (fun _ => ⟨⟨by decide, [0, 0, 0], rfl, by decide⟩,
        ⟨by decide, [0, 0, 0], rfl, by decide⟩⟩),
   (C14_ax_add_to_elementwise two_buffers 0 2 (.val 2) 2).2 (by decide)⟩

/-! ## Copy, then subtract -/

/-- The world `copy` returns on two distinct allocations of equal positive length:
only the block of the destination is replaced, by one of the same size whose
first `length` elements are those of the source. -/
theorem copy_result {T : Type} (w : World T) (this v : Nat) (xs ys : List T)
    (hne : this ≠ v) (hptr : (w.objs this).ptr ≠ (w.objs v).ptr)
    (hp1 : (w.objs this).ptr ≠ 0) (hp2 : (w.objs v).ptr ≠ 0)
    (hys : w.heap (w.objs this).ptr = some ys) (hxs : w.heap (w.objs v).ptr = some xs)
    (hyl : (w.objs this).length ≤ (ys.length : Int))
    (hxl : (w.objs v).length ≤ (xs.length : Int))
    (hlen : (w.objs this).length = (w.objs v).length) (hpos : 0 < (w.objs this).length) :
    ∃ ys', copy w this v
        = .ok { w with heap := Function.update w.heap (w.objs this).ptr (some ys') } ∧
      ys'.length = ys.length ∧
      ∀ t : Nat, (t : Int) < (w.objs this).length → ys'[t]? = xs[t]? := by
  obtain ⟨ys', h1, h2, h3, _⟩ := forLoop_copy_element (w.objs this).ptr (w.objs v).ptr xs hptr
    (w.objs this).length.toNat 0 w.heap ys hys hxs (by omega) (by omega)
  refine ⟨ys', ?_, h2, fun t ht => h3 t (by omega) (by omega)⟩
  unfold copy
  rw [if_neg (by simp [hne, hptr]), if_neg (by simp [hp1, hp2]),
    if_neg (by simp [hlen]; omega), h1]

/-- C15: for two distinct allocated buffers `v1`, `v2` of equal length over a ring
`T` (in particular the integers modulo `2 ^ w`), `v2.copy (v1)` followed by
`v2.ax_add_to (-1, v1)` succeeds and leaves every element of `v2` equal to `0`;
the members of `v2` (its shape included), the members of `v1` and the contents
of `v1` are what they were.  In the fourth block of `main.cpp` (`v1` holding
`0..9`, `v2` of shape `[5, 2]`) the inner product after the copy is `285`, and
at the end `v2` holds zeros under the shape `[5, 2]` and `v1` still holds
`0..9`. -/
theorem C15_copy_then_subtract_is_zero :
    (∀ (T : Type) [Ring T] (w : World T) (v1 v2 : Nat),
      v2 ≠ v1 → (w.objs v2).ptr ≠ (w.objs v1).ptr →
      HasStorage (w.objs v2) w.heap → HasStorage (w.objs v1) w.heap →
      (w.objs v2).length = (w.objs v1).length → 0 < (w.objs v2).length →
      ∃ w1 w2, copy w v2 v1 = .ok w1 ∧ ax_add_to w1 v2 (.val (-1)) v1 = .ok w2 ∧
        (∀ i : Nat, (i : Int) < (w.objs v2).length →
          load w2.heap (w2.objs v2).ptr i = .ok 0) ∧
        w2.objs v2 = w.objs v2 ∧ w2.objs v1 = w.objs v1 ∧
        w2.heap (w.objs v1).ptr = w.heap (w.objs v1).ptr) ∧
    main_block4 = .ok (285, [5, 2], some [0, 0, 0, 0, 0, 0, 0, 0, 0, 0],
      some [0, 1, 2, 3, 4, 5, 6, 7, 8, 9]) := by
  refine ⟨?_, rfl⟩
  intro T _ w v1 v2 hne hptr hst2 hst1 hlen hpos
  obtain ⟨hp2, ys, hys, hyl⟩ := hst2
  obtain ⟨hp1, xs, hxs, hxl⟩ := hst1
  obtain ⟨ys', hc, hl, hel⟩ := copy_result w v2 v1 xs ys hne hptr hp2 hp1 hys hxs hyl hxl
    hlen hpos
  have hx1 : Function.update w.heap (w.objs v2).ptr (some ys') (w.objs v1).ptr = some xs := by
    rw [Function.update_noteq (Ne.symm hptr)]; exact hxs
  obtain ⟨w2, ha, hobjs, hval, hother⟩ := ax_add_to_result
    { w with heap := Function.update w.heap (w.objs v2).ptr (some ys') } v2 v1
    (.val (-1 : T)) (-1 : T) rfl trivial hlen
    (fun _ => ⟨⟨hp2, ys', Function.update_same _ _ _, by rw [hl]; exact hyl⟩,
      ⟨hp1, xs, hx1, hxl⟩⟩)
  refine ⟨_, w2, hc, ha, ?_, by rw [hobjs], by rw [hobjs], ?_⟩
  · intro i hi
    obtain ⟨yi, xi, h1, h2, h3⟩ := hval i hi
    have hix : i < xs.length := by omega
    have e1 : yi = xs[i] := by
      have hsame : Function.update w.heap (w.objs v2).ptr (some ys') (w.objs v2).ptr
          = some ys' := Function.update_same _ _ _
      have := load_of_getElem? hsame ((hel i hi).trans (List.getElem?_eq_getElem hix))
      rw [this] at h1
      cases h1; rfl
    have e2 : xi = xs[i] := by
      have := load_of_getElem? hx1 (List.getElem?_eq_getElem hix)
      rw [this] at h2
      cases h2; rfl
    rw [h3, e1, e2]
    simp
  · rw [hother _ (Ne.symm hptr)]
    exact Function.update_noteq (Ne.symm hptr) _ _

/-- C15 at a concrete input: in `two_buffers` object 0 copies object 1 and then
subtracts it. -/
theorem C15_copy_then_subtract_is_zero_witness :
    (0 : Nat) ≠ 1 ∧
    ∃ w1 w2, copy two_buffers 0 1 = .ok w1 ∧ ax_add_to w1 0 (.val (-1)) 1 = .ok w2 ∧
      (∀ i : Nat, (i : Int) < (two_buffers.objs 0).length →
        load w2.heap (w2.objs 0).ptr i = .ok 0) ∧
      w2.objs 0 = two_buffers.objs 0 ∧ w2.objs 1 = two_buffers.objs 1 ∧
      w2.heap (two_buffers.objs 1).ptr = two_buffers.heap (two_buffers.objs 1).ptr :=
  ⟨by decide,
   C15_copy_then_subtract_is_zero.1 Int two_buffers 1 0 (by decide) (by decide)
     ⟨by decide, [0, 0, 0], rfl, by decide⟩ ⟨by decide, [7, 8, 9], rfl, by decide⟩
     (by decide) (by decide)⟩

/-! ## Reachable states -/

theorem ctor_length_ten : ctor_length (T := Int) 4 100 Heap.empty 10 = .ok ten_zeros := rfl

theorem moved_into_eq :
    moved_into = .ok (move_ctor (default_world.put 0 ten_zeros.1 ten_zeros.2) 1 0) := rfl

theorem reachable_moved_into :
    Reachable (move_ctor (default_world.put 0 ten_zeros.1 ten_zeros.2) 1 0) :=
  Reachable.step _ _
    (Reachable.step _ _ Reachable.init
      (Step.ctor_length default_world 0 4 100 10 ten_zeros.1 ten_zeros.2 ctor_length_ten))
    (Step.move_ctor _ 1 0)

/-- C17 (evaluation at the failing input): after
`linear_memory<int> v (10); linear_memory<int> d (std::move (v));` the world is
reachable through the public operations, `d` holds the storage and has
`length == 10`, but its shape is still the default `[-(2 ^ 30)]`: the product of
its shape is not its `length`, and its shape is not `[length]`. -/
theorem C17_move_ctor_breaks_shape_product :
    ∃ w : World Int, moved_into = .ok w ∧ Reachable w ∧
      (w.objs 1).ptr = 100 ∧ w.heap 100 ≠ none ∧ (w.objs 1).length = 10 ∧
      (w.objs 1).vec_length = [-(2 ^ 30)] ∧
      (w.objs 1).vec_length.prod ≠ (w.objs 1).length ∧
      wrapLong (w.objs 1).vec_length.prod ≠ (w.objs 1).length ∧
      (w.objs 1).vec_length ≠ [(w.objs 1).length] :=
  ⟨_, moved_into_eq, reachable_moved_into, rfl, by decide, rfl, rfl, by decide, by decide,
   by decide⟩

theorem allocate_memory_ptr_length {T : Type} [Zero T] (sizeofT fresh : Nat)
    (self b : linear_memory) (heap heap' : Heap T) (L : Int)
    (h : allocate_memory sizeofT fresh self heap L = .ok (b, heap')) :
    b.ptr ≠ 0 ∧ 0 < b.length := by
  simp only [allocate_memory, vecSet] at h
  split_ifs at h with h1 h2 h3 h4 h5
  simp only [reduceCtorEq, Except.ok.injEq, Prod.mk.injEq] at h
  obtain ⟨rfl, _⟩ := h
  exact ⟨h4, by simpa using h2⟩

theorem attach_dimension_ptr_length (self b : linear_memory) (V : List Int)
    (h : attach_dimension self V = .ok b) : b.ptr = self.ptr ∧ b.length = self.length := by
  rw [attach_dimension_eq] at h
  split_ifs at h
  cases h
  exact ⟨rfl, rfl⟩

theorem ctor_length_shape_ptr_length {T : Type} [Zero T] (sizeofT fresh : Nat) (heap heap' : Heap T)
    (L : Int) (V : List Int) (b : linear_memory)
    (h : ctor_length_shape sizeofT fresh heap L V = .ok (b, heap')) :
    b.ptr ≠ 0 ∧ 0 < b.length := by
  unfold ctor_length_shape at h
  simp only [bind, Except.bind, pure, Except.pure] at h
  split at h
  · cases h
  · rename_i p hp
    split at h
    · cases h
    · rename_i b' hb'
      cases h
      obtain ⟨h1, h2⟩ := attach_dimension_ptr_length _ _ _ hb'
      obtain ⟨h3, h4⟩ := allocate_memory_ptr_length sizeofT fresh {} p.1 heap p.2 L hp
      exact ⟨by rw [h1]; exact h3, by rw [h2]; exact h4⟩

theorem ctor_shape_ptr_length {T : Type} [Zero T] (sizeofT fresh : Nat) (heap heap' : Heap T)
    (V : List Int) (b : linear_memory)
    (h : ctor_shape sizeofT fresh heap V = .ok (b, heap')) :
    b.ptr ≠ 0 ∧ 0 < b.length := by
  unfold ctor_shape at h
  simp only [bind, Except.bind, pure, Except.pure] at h
  split at h
  · cases h
  · rename_i L _
    split at h
    · cases h
    · rename_i p hp
      split at h
      · cases h
      · rename_i b' hb'
        cases h
        obtain ⟨h1, h2⟩ := attach_dimension_ptr_length _ _ _ hb'
        obtain ⟨h3, h4⟩ := allocate_memory_ptr_length sizeofT fresh {} p.1 heap p.2 L hp
        exact ⟨by rw [h1]; exact h3, by rw [h2]; exact h4⟩

theorem with_heap_objs {T : Type} (w w' : World T) (r : Except Err (Heap T))
    (h : with_heap w r = .ok w') : w'.objs = w.objs := by
  unfold with_heap at h
  split at h
  · cases h; rfl
  · cases h

theorem copy_objs {T : Type} (w w' : World T) (this v : Nat) (h : copy w this v = .ok w') :
    w'.objs = w.objs := by
  unfold copy at h
  split_ifs at h
  split at h
  · cases h; rfl
  · cases h

theorem storageIffPositive_put {T : Type} (w : World T) (i : Nat) (b : linear_memory)
    (heap : Heap T) (hw : ∀ id, StorageIffPositive (w.objs id)) (hb : StorageIffPositive b) :
    ∀ id, StorageIffPositive ((w.put i b heap).objs id) := by
  intro id
  by_cases h : id = i
  · subst h; simpa [World.put] using hb
  · simpa [World.put, Function.update_noteq h] using hw id

theorem storageIffPositive_of {b : linear_memory} (h : b.ptr ≠ 0 ∧ 0 < b.length) :
    StorageIffPositive b :=
  ⟨fun _ => h.2, fun _ => h.1⟩

theorem storageIffPositive_move_transfer {T : Type} (w : World T) (this v : Nat)
    (hw : ∀ id, StorageIffPositive (w.objs id)) :
    ∀ id, StorageIffPositive ((move_transfer w this v).objs id) := by
  intro id
  have hv := hw v
  have hid := hw id
  unfold StorageIffPositive at *
  by_cases h1 : id = v
  · subst h1; simp [move_transfer]
  · by_cases h2 : id = this
    · subst h2; simpa [move_transfer, Function.update_noteq h1] using hv
    · simpa [move_transfer, Function.update_noteq h1, Function.update_noteq h2] using hid

theorem storageIffPositive_step {T : Type} [Zero T] [Add T] [Mul T] [Div T] (w w' : World T)
    (hs : Step w w') (hw : ∀ id, StorageIffPositive (w.objs id)) :
    ∀ id, StorageIffPositive (w'.objs id) := by
  have hdef : StorageIffPositive {} := by unfold StorageIffPositive; decide
  cases hs with
  | ctor_default id => exact storageIffPositive_put w _ _ _ hw hdef
  | ctor_length id sizeofT fresh L b heap' h =>
    exact storageIffPositive_put w _ _ _ hw
      (storageIffPositive_of (allocate_memory_ptr_length _ _ _ _ _ _ _ h))
  | ctor_length_shape id sizeofT fresh L V b heap' h =>
    exact storageIffPositive_put w _ _ _ hw
      (storageIffPositive_of (ctor_length_shape_ptr_length _ _ _ _ _ _ _ h))
  | ctor_shape id sizeofT fresh V b heap' h =>
    exact storageIffPositive_put w _ _ _ hw
      (storageIffPositive_of (ctor_shape_ptr_length _ _ _ _ _ _ h))
  | copy_ctor _ id v sizeofT fresh h =>
    unfold copy_ctor at h
    simp only [bind, Except.bind] at h
    split at h
    · cases h
    · rename_i p hp
      rw [copy_objs _ _ _ _ h]
      exact storageIffPositive_put w _ _ _ hw
        (storageIffPositive_of (allocate_memory_ptr_length _ _ _ _ _ _ _ hp))
  | move_ctor id v =>
    exact storageIffPositive_move_transfer _ id v
      (storageIffPositive_put w id {} w.heap hw hdef)
  | allocate_memory id sizeofT fresh L b heap' h =>
    exact storageIffPositive_put w _ _ _ hw
      (storageIffPositive_of (allocate_memory_ptr_length _ _ _ _ _ _ _ h))
  | attach_dimension id V b h =>
    obtain ⟨h1, h2⟩ := attach_dimension_ptr_length _ _ _ h
    refine storageIffPositive_put w _ _ _ hw ?_
    have := hw id
    unfold StorageIffPositive at *
    rw [h1, h2]; exact this
  | copy _ this v h => rw [copy_objs _ _ _ _ h]; exact hw
  | move_assign _ this v h =>
    unfold move_assign at h
    split_ifs at h
    cases h
    exact storageIffPositive_move_transfer w this v hw
  | assign_list _ this il h =>
    unfold assign_list at h
    split_ifs at h
    rw [with_heap_objs _ _ _ h]; exact hw
  | set_constant _ this a h => rw [with_heap_objs _ _ _ h]; exact hw
  | mul_assign _ this a h => rw [with_heap_objs _ _ _ h]; exact hw
  | div_assign _ this a h => rw [with_heap_objs _ _ _ h]; exact hw
  | ax_add_to _ this a x h =>
    unfold ax_add_to at h
    split_ifs at h
    rw [with_heap_objs _ _ _ h]; exact hw
  | ax_by_assign _ this a x b y h =>
    unfold ax_by_assign at h
    split_ifs at h
    rw [with_heap_objs _ _ _ h]; exact hw

theorem storageIffPositive_reachable {T : Type} [Zero T] [Add T] [Mul T] [Div T] (w : World T)
    (hw : Reachable w) : ∀ id, StorageIffPositive (w.objs id) := by
  induction hw with
  | init =>
    intro id
    show StorageIffPositive ({} : linear_memory)
    unfold StorageIffPositive
    decide
  | step w w' _ hs ih => exact storageIffPositive_step w w' hs ih

/-- C18: in every world reachable from default-constructed buffers through the
public operations (the constructors, `allocate_memory`, `attach_dimension`,
`copy`, move construction, move assignment, the element-wise operations) the
storage handle of every buffer is non-null if and only if its `length` is
positive.  A default-constructed buffer has the negative sentinel `length` and
no storage, the source of a move has `length == 0` and no storage, and a buffer
on which `allocate_memory` succeeded has storage and a positive `length`. -/
theorem C18_storage_iff_positive_length :
    (∀ (T : Type) [Zero T] [Add T] [Mul T] [Div T] (w : World T), Reachable w →
      ∀ id, ((w.objs id).ptr ≠ 0 ↔ 0 < (w.objs id).length)) ∧
    (({} : linear_memory).length = -(2 ^ 30) ∧ ({} : linear_memory).length < 0 ∧
      ({} : linear_memory).ptr = 0) ∧
    (∀ (T : Type) (w : World T) (d v : Nat),
      ((move_ctor w d v).objs v).length = 0 ∧ ((move_ctor w d v).objs v).ptr = 0) ∧
    (∀ (T : Type) (w w' : World T) (d v : Nat), move_assign w d v = .ok w' →
      (w'.objs v).length = 0 ∧ (w'.objs v).ptr = 0) ∧
    (∀ (T : Type) [Zero T] (sizeofT fresh : Nat) (self b : linear_memory) (heap heap' : Heap T)
      (L : Int), allocate_memory sizeofT fresh self heap L = .ok (b, heap') →
      b.ptr ≠ 0 ∧ 0 < b.length) := by
  refine ⟨?_, ⟨rfl, by decide, rfl⟩, ?_, ?_, ?_⟩
  · intro T _ _ _ _ w hw id
    exact storageIffPositive_reachable w hw id
  · intro T w d v
    simp [move_ctor, move_transfer]
  · intro T w w' d v h
    unfold move_assign at h
    split_ifs at h
    cases h
    simp [move_transfer]
  · intro T _ sizeofT fresh self b heap heap' L h
    exact allocate_memory_ptr_length sizeofT fresh self b heap heap' L h

/-- C18 at a concrete input: after
`linear_memory<int> v (10); linear_memory<int> d (std::move (v));` the
destination (object 1) and the source (object 0) both satisfy the equivalence. -/
theorem C18_storage_iff_positive_length_witness :
    (((move_ctor (default_world.put 0 ten_zeros.1 ten_zeros.2) 1 0).objs 1).ptr ≠ 0 ↔
      0 < ((move_ctor (default_world.put 0 ten_zeros.1 ten_zeros.2) 1 0).objs 1).length) ∧
    (((move_ctor (default_world.put 0 ten_zeros.1 ten_zeros.2) 1 0).objs 0).ptr ≠ 0 ↔
      0 < ((move_ctor (default_world.put 0 ten_zeros.1 ten_zeros.2) 1 0).objs 0).length) :=
  ⟨C18_storage_iff_positive_length.1 Int _ reachable_moved_into 1,
   C18_storage_iff_positive_length.1 Int _ reachable_moved_into 0⟩

/-! ## Row-major indexing: bounds and bijection -/

theorem rowMajorStrides_cons (s : Int) (ss : List Int) :
    rowMajorStrides (s :: ss) = wrapLong ss.prod :: rowMajorStrides ss := by
  simp [rowMajorStrides, List.range_succ_eq_map, List.map_map, Function.comp_def]

theorem inRange_length : ∀ (idx shape : List Int), InRange idx shape →
    idx.length = shape.length
  | [], [], _ => rfl
  | [], _ :: _, h => absurd h id
  | _ :: _, [], h => absurd h id
  | _ :: is, _ :: ss, h => by
    simp [inRange_length is ss h.2]

theorem inRange_pos : ∀ (idx shape : List Int), InRange idx shape → ∀ s ∈ shape, 0 < s
  | [], [], _ => by simp
  | [], _ :: _, h => absurd h id
  | _ :: _, [], h => absurd h id
  | i :: is, s :: ss, h => by
    intro x hx
    rcases List.mem_cons.mp hx with rfl | hx
    · have := h.1; omega
    · exact inRange_pos is ss h.2 x hx

theorem prod_pos_of_pos (shape : List Int) (h : ∀ s ∈ shape, 0 < s) : 0 < shape.prod :=
  List.prod_pos h

theorem rowMajorOffset_bounds : ∀ (idx shape : List Int), InRange idx shape →
    0 ≤ rowMajorOffset idx shape ∧ rowMajorOffset idx shape < shape.prod
  | [], [], _ => by simp [rowMajorOffset]
  | [], _ :: _, h => absurd h id
  | _ :: _, [], h => absurd h id
  | i :: is, s :: ss, h => by
    obtain ⟨h1, h2⟩ := rowMajorOffset_bounds is ss h.2
    have hP : 0 < ss.prod := prod_pos_of_pos ss (inRange_pos is ss h.2)
    have hi := h.1
    have e1 : 0 ≤ i * ss.prod := mul_nonneg hi.1 (le_of_lt hP)
    have e2 : 0 ≤ (s - 1 - i) * ss.prod := mul_nonneg (by omega) (le_of_lt hP)
    simp only [rowMajorOffset, List.prod_cons]
    constructor
    · omega
    · nlinarith

theorem zipWith_strides_sum : ∀ (idx shape : List Int), InRange idx shape → isLong shape.prod →
    (List.zipWith (· * ·) idx (rowMajorStrides shape)).sum = rowMajorOffset idx shape
  | [], [], _, _ => by simp [rowMajorOffset]
  | [], _ :: _, h, _ => absurd h id
  | _ :: _, [], h, _ => absurd h id
  | i :: is, s :: ss, h, hl => by
    have hP : 0 < ss.prod := prod_pos_of_pos ss (inRange_pos is ss h.2)
    have hi := h.1
    unfold isLong at hl
    rw [List.prod_cons] at hl
    have e3 : 0 ≤ (s - 1) * ss.prod := mul_nonneg (by omega) (le_of_lt hP)
    have hPl : isLong ss.prod := ⟨by omega, by nlinarith⟩
    rw [rowMajorStrides_cons, List.zipWith_cons_cons, List.sum_cons, wrapLong_of_isLong hPl,
      zipWith_strides_sum is ss h.2 hPl]
    rfl

theorem flatOffset_rowMajor (idx shape : List Int) (h : InRange idx shape)
    (hl : isLong shape.prod) :
    flatOffset idx (rowMajorStrides shape) = rowMajorOffset idx shape := by
  unfold flatOffset
  rw [zipWith_strides_sum idx shape h hl]
  obtain ⟨h1, h2⟩ := rowMajorOffset_bounds idx shape h
  unfold isLong at hl
  exact wrapLong_of_isLong ⟨by omega, by omega⟩

/-- The value of `at (indices)` on a buffer with storage whose shape members agree
in size, for an index vector of the right arity. -/
theorem at_vec_eq (self : linear_memory) (vec_ind : List Int) (hshape : ShapeConsistent self)
    (hptr : self.ptr ≠ 0) (hdim : (vec_ind.length : Int) = self.dim) :
    at_vec self vec_ind =
      if 0 ≤ flatOffset vec_ind self.vec_stride ∧
          flatOffset vec_ind self.vec_stride < self.length
      then .ok (flatOffset vec_ind self.vec_stride) else .error .OutOfBounds := by
  have hlen : vec_ind.length = self.vec_length.length := by
    have := hshape.1
    omega
  unfold at_vec
  rw [flat_index_eq self vec_ind hdim (by rw [hshape.2, hlen])]
  simp [hlen, ← hshape.1, hptr]

theorem shapeAttached_attach_dimension (self b : linear_memory) (shape : List Int)
    (h : attach_dimension self shape = .ok b) : ShapeAttached b shape :=
  ⟨self, b, h, rfl, rfl, rfl⟩

theorem shapeAttached_members (b : linear_memory) (shape : List Int)
    (h : ShapeAttached b shape) :
    b.vec_length = shape ∧ b.dim = shape.length ∧ b.vec_stride = rowMajorStrides shape := by
  obtain ⟨self, b0, h0, h1, h2, h3⟩ := h
  rw [attach_dimension_eq] at h0
  split_ifs at h0
  cases h0
  exact ⟨h1, h2, h3⟩

theorem attach_wrapped_shape :
    attach_dimension { bool_manage_memory := true, length := 10, ptr := 100, vec_length := [10] }
      [7, 5270498306774157606] = .ok wrapped_shape := rfl

/-- The value of `at (indices)` on a buffer whose shape members are those
`attach_dimension (shape)` left and whose `length` is the product of the extents
as an integer, for in-range indices: the row-major offset, which is the
mathematical sum of the `indices[k] * strides[k]` and lies in `[0, length)`. -/
theorem at_vec_in_range (b : linear_memory) (shape idx : List Int)
    (hatt : ShapeAttached b shape) (hlen : b.length = shape.prod) (hlong : isLong b.length)
    (hptr : b.ptr ≠ 0) (hin : InRange idx shape) :
    b.dim = shape.length ∧
    (List.zipWith (· * ·) idx b.vec_stride).sum = rowMajorOffset idx shape ∧
    at_vec b idx = .ok (rowMajorOffset idx shape) := by
  obtain ⟨hvl, hdim, hstr⟩ := shapeAttached_members b shape hatt
  have hsc : ShapeConsistent b := by
    refine ⟨by rw [hvl, hdim], ?_⟩
    rw [hstr, hvl]
    simp [rowMajorStrides]
  have hlong' : isLong shape.prod := by rw [← hlen]; exact hlong
  obtain ⟨h1, h2⟩ := rowMajorOffset_bounds idx shape hin
  refine ⟨hdim, by rw [hstr]; exact zipWith_strides_sum idx shape hin hlong', ?_⟩
  rw [at_vec_eq b idx hsc hptr (by rw [hdim, inRange_length idx shape hin]), hstr,
    flatOffset_rowMajor idx shape hin hlong', if_pos ⟨h1, by rw [hlen]; exact h2⟩]

/-- C19 (counterexample): two allocated buffers with an attached shape of positive
extents and in-range indices whose offset is not in `[0, length)`.  The
10-element buffer `wrapped_shape` carries the attached shape
`[7, 5270498306774157606]` (the `long` product is `10`) and `at ({1, 0})` fails
with `OutOfBounds`.  After `stale_shape` the buffer `d` carries the shape
`[2, 5]` attached at its construction and holds the 3-element storage taken from
`s`; `at ({1, 1})` computes the offset `6` and fails with `OutOfBounds`. -/
theorem C19_in_range_index_out_of_bounds :
    (attach_dimension
        { bool_manage_memory := true, length := 10, ptr := 100, vec_length := [10] }
        [7, 5270498306774157606] = .ok wrapped_shape ∧
      InRange [1, 0] [7, 5270498306774157606] ∧
      at_vec wrapped_shape [1, 0] = .error .OutOfBounds) ∧
    (stale_shape.map (fun w => ((w.objs 0).ptr, (w.objs 0).length, (w.objs 0).dim,
        (w.objs 0).vec_length, (w.objs 0).vec_stride, (w.heap 200).map List.length))
      = .ok (200, 3, 2, [2, 5], [5, 1], some 8) ∧
      InRange [1, 1] [2, 5] ∧
      stale_shape.map (fun w => flat_index (w.objs 0) [1, 1]) = .ok (.ok 6) ∧
      stale_shape.map (fun w => at_vec (w.objs 0) [1, 1]) = .ok (.error .OutOfBounds)) := by
  refine ⟨⟨rfl, by decide, rfl⟩, rfl, by decide, rfl, rfl⟩

/-- C19 (amended): on an allocated buffer whose shape members are those
`attach_dimension (shape)` left and whose `length` is the product of the extents
as a mathematical integer, for every index vector with
`indices.size() == dim` and `0 <= indices[k] < shape[k]` for all `k` (which
forces positive extents), the sum of the `indices[k] * strides[k]` lies in
`[0, length)`; `at (indices)` returns the element at that offset and takes
neither its `DimensionMismatch` nor its `OutOfBounds` branch. -/
theorem C19_in_range_index_in_bounds {T : Type} (b : linear_memory) (heap : Heap T)
    (shape idx : List Int) (hatt : ShapeAttached b shape) (hlen : b.length = shape.prod)
    (hlong : isLong b.length) (hst : HasStorage b heap) (hin : InRange idx shape) :
    (idx.length : Int) = b.dim ∧
    0 ≤ (List.zipWith (· * ·) idx b.vec_stride).sum ∧
    (List.zipWith (· * ·) idx b.vec_stride).sum < b.length ∧
    at_vec b idx = .ok ((List.zipWith (· * ·) idx b.vec_stride).sum) ∧
    at_vec b idx ≠ .error .DimensionMismatch ∧ at_vec b idx ≠ .error .OutOfBounds ∧
    ∃ x, load heap b.ptr ((List.zipWith (· * ·) idx b.vec_stride).sum).toNat = .ok x := by
  obtain ⟨hd, hsum, hat⟩ := at_vec_in_range b shape idx hatt hlen hlong hst.1 hin
  obtain ⟨h1, h2⟩ := rowMajorOffset_bounds idx shape hin
  have hdim : (idx.length : Int) = b.dim := by
    rw [hd, inRange_length idx shape hin]
  rw [hsum, hlen]
  refine ⟨hdim, h1, h2, hat, ?_, ?_, ?_⟩
  · rw [hat]; intro h; cases h
  · rw [hat]; intro h; cases h
  · exact load_of_hasStorage b heap _ hst h1 (by rw [hlen]; exact h2)

theorem attach_two_by_five :
    attach_dimension { bool_manage_memory := true, length := 10, ptr := 100, vec_length := [10] }
      [2, 5] = .ok two_by_five := rfl

theorem hasStorage_two_by_five : HasStorage two_by_five heap_0_to_9 :=
  ⟨by decide, [0, 1, 2, 3, 4, 5, 6, 7, 8, 9], rfl, by decide⟩

/-- C19 (amended) at a concrete input: the indices `(1, 3)` under the shape `[2, 5]`
of a 10-element buffer give the offset `8`. -/
theorem C19_in_range_index_in_bounds_witness :
    InRange [1, 3] [2, 5] ∧ two_by_five.length = ([2, 5] : List Int).prod ∧
    (0 : Int) ≤ (List.zipWith (· * ·) [1, 3] two_by_five.vec_stride).sum ∧
    (List.zipWith (· * ·) [1, 3] two_by_five.vec_stride).sum < two_by_five.length ∧
    at_vec two_by_five [1, 3] = .ok 8 :=
  ⟨by decide, by decide,
   (C19_in_range_index_in_bounds two_by_five heap_0_to_9 [2, 5] [1, 3]
      (shapeAttached_attach_dimension _ _ _ attach_two_by_five) (by decide) (by decide)
      hasStorage_two_by_five (by decide)).2.1,
   (C19_in_range_index_in_bounds two_by_five heap_0_to_9 [2, 5] [1, 3]
      (shapeAttached_attach_dimension _ _ _ attach_two_by_five) (by decide) (by decide)
      hasStorage_two_by_five (by decide)).2.2.1,
   (C19_in_range_index_in_bounds two_by_five heap_0_to_9 [2, 5] [1, 3]
      (shapeAttached_attach_dimension _ _ _ attach_two_by_five) (by decide) (by decide)
      hasStorage_two_by_five (by decide)).2.2.2.1⟩

end LinearMemory
